import Mathlib

set_option maxHeartbeats 4000000
set_option maxRecDepth 8000

attribute [local semireducible] Rat.add Rat.mul Rat.inv Rat.sub Rat.ofScientific

/-!
Shallow embedding of the cfelpyutils repository
(src/src/cfelpyutils/crystfel_utils.py and src/cfelpyutils/geometry_utils.py).

Modelling conventions:
* Python floats are modelled as rationals; Python ints as integers.
* Python strings are modelled as lists of characters (`Str`).
* Python dictionaries with a fixed key set are modelled as structures; a key
  that may be absent from the dictionary is modelled as an `Option` field with
  `none` meaning the key is absent (documented per field).
* Fallible code returns `Except PyErr`; the constructors of `PyErr` mirror the
  Python exception classes that the source can raise.
* The transcendental operations of numpy (sqrt, arctan2) are taken as
  parameters of the pixel-map builder; every result of the builder applies
  them elementwise exactly where the source does.
-/

/-- Python strings are modelled as lists of characters. -/
abbrev Str := List Char

/-- Conversion from a Lean string literal to the character-list model. -/
def chars (s : String) : Str := s.data

/-- The Python exception kinds that the embedded code can raise. -/
inductive PyErr where
  | runtimeError (msg : Str)
  | keyError (key : Str)
  | valueError
  | indexError
  | typeError
  | zeroDivisionError
deriving DecidableEq, Repr

/-- Characters on which the tokenizer splits: the regex `([ \t])`. -/
def isBlankChar (c : Char) : Bool := c = ' ' || c = '\t'

/-- Whitespace stripped by Python `str.strip()`. -/
def isPySpace (c : Char) : Bool :=
  c = ' ' || c = '\t' || c = '\n' || c = '\r' || c = '\x0b' || c = '\x0c'

/-- Python `str.strip()`. -/
def pyStrip (s : Str) : Str :=
  ((s.dropWhile isPySpace).reverse.dropWhile isPySpace).reverse

/-- Splits a character list at every character satisfying `delim`, dropping
the delimiters and keeping empty chunks, like Python `str.split(d)`. -/
def splitKeep (delim : Char → Bool) : Str → List Str
  | [] => [[]]
  | c :: rest =>
    if delim c then [] :: splitKeep delim rest
    else
      match splitKeep delim rest with
      | [] => [[c]]
      | t :: ts => (c :: t) :: ts

/-- The tokenization of a line: `re.split("([ \t])", s)` with the empty and
blank items filtered out, i.e. the maximal runs of non-blank characters. -/
def tokenize (s : Str) : List Str :=
  (splitKeep isBlankChar s).filter (fun t => t ≠ [])

/-- The path split of a key: `re.split("(/)", key)` with the items that are
substrings of "/" (the empty string and "/" itself) filtered out. -/
def splitPath (s : Str) : List Str :=
  (splitKeep (fun c => c = '/') s).filter (fun t => t ≠ [])

/-- Python `value.split(",")`: empty chunks are kept. -/
def splitComma (s : Str) : List Str := splitKeep (fun c => c = ',') s

/-- Value of a run of decimal digits. -/
def digitsToNat (ds : Str) : Nat := ds.foldl (fun a c => a * 10 + (c.toNat - 48)) 0

/-- Decimal digits of a natural number, used for Python `str.format` of ints. -/
def natChars (n : Nat) : Str := Nat.toDigits 10 n

/-- Python `float(value)` on decimal literals (optional sign, integer part,
fraction, exponent), returning `none` where Python raises ValueError.
The non-finite literals inf and nan have no rational counterpart and are out
of scope of this embedding. -/
def pyFloat (s0 : Str) : Option ℚ :=
  let s := pyStrip s0
  let sgn : ℚ := match s with
    | '-' :: _ => -1
    | _ => 1
  let s1 : Str := match s with
    | '+' :: r => r
    | '-' :: r => r
    | r => r
  let ip := s1.takeWhile Char.isDigit
  let s2 := s1.dropWhile Char.isDigit
  let fp : Str := match s2 with
    | '.' :: r => r.takeWhile Char.isDigit
    | _ => []
  let s3 : Str := match s2 with
    | '.' :: r => r.dropWhile Char.isDigit
    | r => r
  if ip = [] ∧ fp = [] then none
  else
    let mant : ℚ := (digitsToNat (ip ++ fp) : ℚ) / ((10 : ℚ) ^ fp.length)
    match s3 with
    | [] => some (sgn * mant)
    | e :: r =>
      if e = 'e' ∨ e = 'E' then
        let esgn : ℤ := match r with
          | '-' :: _ => -1
          | _ => 1
        let r1 : Str := match r with
          | '+' :: rr => rr
          | '-' :: rr => rr
          | rr => rr
        let ed := r1.takeWhile Char.isDigit
        let rest := r1.dropWhile Char.isDigit
        if ed = [] ∨ rest ≠ [] then none
        else some (sgn * mant * (10 : ℚ) ^ (esgn * (digitsToNat ed : ℤ)))
      else none

/-- Python `int(value)` in base 10, returning `none` where Python raises
ValueError. -/
def pyInt (s0 : Str) : Option ℤ :=
  let s := pyStrip s0
  let sgn : ℤ := match s with
    | '-' :: _ => -1
    | _ => 1
  let s1 : Str := match s with
    | '+' :: r => r
    | '-' :: r => r
    | r => r
  if s1 ≠ [] ∧ s1.all Char.isDigit then some (sgn * (digitsToNat s1 : ℤ)) else none

/-- Hexadecimal digit value. -/
def hexVal (c : Char) : Option Nat :=
  if c.isDigit then some (c.toNat - 48)
  else if 'a' ≤ c ∧ c ≤ 'f' then some (c.toNat - 87)
  else if 'A' ≤ c ∧ c ≤ 'F' then some (c.toNat - 55)
  else none

/-- Python `int(value, base=16)`: optional sign, optional 0x, hex digits. -/
def pyIntHex (s0 : Str) : Option ℤ :=
  let s := pyStrip s0
  let sgn : ℤ := match s with
    | '-' :: _ => -1
    | _ => 1
  let s1 : Str := match s with
    | '+' :: r => r
    | '-' :: r => r
    | r => r
  let s2 : Str := match s1 with
    | '0' :: 'x' :: r => r
    | '0' :: 'X' :: r => r
    | r => r
  if s2 ≠ [] ∧ s2.all (fun c => (hexVal c).isSome) then
    some (sgn * (s2.foldl (fun a c => a * 16 + (hexVal c).getD 0) 0 : ℤ))
  else none

/-- Python `int(q)` on a float: truncation toward zero. -/
def pyTrunc (q : ℚ) : ℤ := if q < 0 then Rat.ceil q else Rat.floor q

/-- An entry of a dim_structure list: "ss", "fs", "%" or an integer. -/
inductive DimEntry where
  | ss
  | fs
  | holeMark
  | num (n : ℤ)
deriving DecidableEq, Repr

/-- The max_adu slot holds either the default float("inf") or the raw string
assigned by the setter (the source stores the unconverted string). -/
inductive MaxAdu where
  | infFloat
  | rawStr (s : Str)
deriving DecidableEq, Repr

/-- The tri-state is_fsss tag of a bad region: 99 (unset), False (x/y), or
True (fs/ss). -/
inductive FsssTag where
  | unsetTag
  | xyTag
  | fsssTag
deriving DecidableEq, Repr

/-- A panel record. The field defaults are exactly the entries of the
`default_panel` dictionary in load_crystfel_geometry; an `Option` field whose
comment says "absent" models a key that the default dictionary does not
contain and that assignment or validation adds later. -/
structure Panel where
  cnx : Option ℚ := none                      -- None
  cny : Option ℚ := none                      -- None
  clen : Option ℚ := none                     -- None
  coffset : ℚ := 0
  res : ℚ := -1
  badrow : Str := chars ("-")
  no_idx : Bool := false                      -- models the no_index key (no_index is a Lean keyword)
  fsx : ℚ := 1
  fsy : ℚ := 0
  fsz : ℚ := 0
  ssx : ℚ := 0
  ssy : ℚ := 1
  ssz : ℚ := 0
  rail_x : Option ℚ := none                   -- None
  rail_y : Option ℚ := none                   -- None
  rail_z : Option ℚ := none                   -- None
  clen_for_centering : Option ℚ := none       -- None
  adu_per_eV : Option ℚ := none               -- None
  adu_per_photon : Option ℚ := none           -- None
  max_adu : MaxAdu := .infFloat
  mask : Option Str := none                   -- None
  mask_file : Option Str := none              -- None
  satmap : Option Str := none                 -- None
  satmap_file : Option Str := none            -- None
  data : Option Str := none                   -- None
  dim_structure : Option (List (Option DimEntry)) := none  -- None
  origin_min_fs : Option ℤ := none            -- absent
  origin_max_fs : Option ℤ := none            -- absent
  origin_min_ss : Option ℤ := none            -- absent
  origin_max_ss : Option ℤ := none            -- absent
  min_fs : Option ℤ := none                   -- absent
  max_fs : Option ℤ := none                   -- absent
  min_ss : Option ℤ := none                   -- absent
  max_ss : Option ℤ := none                   -- absent
  clen_from : Option (Option Str) := none     -- absent; some none models None
  rigid_group : Option Str := none            -- absent
  saturation_map : Option Str := none         -- absent
  saturation_map_file : Option Str := none    -- absent
  w : Option ℤ := none                        -- absent until validation
  h : Option ℤ := none                        -- absent until validation
  xfs : Option ℚ := none                      -- absent until validation
  yfs : Option ℚ := none                      -- absent until validation
  xss : Option ℚ := none                      -- absent until validation
  yss : Option ℚ := none                      -- absent until validation
deriving DecidableEq, Repr

/-- A bad-region record; defaults are the `default_bad_region` dictionary. -/
structure BadRegion where
  min_x : Option ℚ := none
  max_x : Option ℚ := none
  min_y : Option ℚ := none
  max_y : Option ℚ := none
  min_fs : ℤ := 0
  max_fs : ℤ := 0
  min_ss : ℤ := 0
  max_ss : ℤ := 0
  is_fsss : FsssTag := .unsetTag
  panel : Option Str := none                  -- absent
deriving DecidableEq, Repr

/-- The beam record built by the loader. -/
structure Beam where
  photon_energy : ℚ := 0
  photon_energy_from : Option Str := none
  photon_energy_scale : ℚ := 1
deriving DecidableEq, Repr

/-- The detector record built by the loader; ordered dictionaries are modelled
as association lists in insertion order. -/
structure Detector where
  panels : List (Str × Panel) := []
  bad : List (Str × BadRegion) := []
  mask_good : ℤ := 0
  mask_bad : ℤ := 0
  rigid_groups : List (Str × List Str) := []
  rigid_group_collections : List (Str × List Str) := []
  peak_info_location : Option Str := none     -- absent
  furthest_out_panel : Option Str := none     -- absent
  furthest_out_fs : Option ℤ := none          -- absent
  furthest_out_ss : Option ℤ := none          -- absent
  furthest_in_panel : Option Str := none      -- absent
  furthest_in_fs : Option ℤ := none           -- absent
  furthest_in_ss : Option ℤ := none           -- absent
deriving DecidableEq, Repr

/-- Ordered-dictionary lookup on an association list. -/
def alookup {β : Type} (k : Str) : List (Str × β) → Option β
  | [] => none
  | (k0, v0) :: rest => if k0 = k then some v0 else alookup k rest

/-- Ordered-dictionary assignment: replaces in place, appends if new. -/
def aset {β : Type} (k : Str) (v : β) : List (Str × β) → List (Str × β)
  | [] => [(k, v)]
  | (k0, v0) :: rest => if k0 = k then (k, v) :: rest else (k0, v0) :: aset k v rest

/-- Python `list.isPrefixOf`-style check used for `str.startswith`. -/
def startsWith (pre s : Str) : Bool := List.isPrefixOf pre s

/-- Splits like `splitKeep` but keeps each delimiter as its own singleton
item, mirroring a regex split with a capture group. -/
def splitCapture (delim : Char → Bool) : Str → List Str
  | [] => [[]]
  | c :: rest =>
    if delim c then
      [] :: [c] :: splitCapture delim rest
    else
      match splitCapture delim rest with
      | [] => [[c]]
      | t :: ts => (c :: t) :: ts

/-- Dictionary key lookup: an absent key raises KeyError. -/
def dictLookup {B : Type} (v : Option B) (key : Str) : Except PyErr B :=
  match v with
  | some x => .ok x
  | none => .error (.keyError key)

/-- A stored None flowing into numpy arithmetic raises; models those sites. -/
def valueOrTypeError {B : Type} (v : Option B) : Except PyErr B :=
  match v with
  | some x => .ok x
  | none => .error .typeError

lemma dictLookup_ok {B : Type} {v : Option B} {k : Str} {x : B}
    (h : dictLookup v k = .ok x) : v = some x := by
  cases v
  · exact absurd h (by simp [dictLookup])
  · simpa [dictLookup] using h

lemma valueOrTypeError_ok {B : Type} {v : Option B} {x : B}
    (h : valueOrTypeError v = .ok x) : v = some x := by
  cases v
  · exact absurd h (by simp [valueOrTypeError])
  · simpa [valueOrTypeError] using h

/-- Re-implementation of `_assplode_algebraic`: `re.split("([+-])", ...)` on
the stripped value, drop empty items, give the leading term an implicit plus,
and join sign/body pairs.  An odd number of items makes the source index out
of range, modelled by `indexError`. -/
def assplode_algebraic (value : Str) : Except PyErr (List Str) :=
  let items0 := (splitCapture (fun c => c = '+' || c = '-') (pyStrip value)).filter (fun t => t ≠ [])
  pairUp (withLeadingPlus items0)
where
  withLeadingPlus : List Str → List Str
    | [] => []
    | it :: rest =>
      if it = chars ("+") ∨ it = chars ("-") then it :: rest
      else chars ("+") :: it :: rest
  pairUp : List Str → Except PyErr (List Str)
    | [] => .ok []
    | [_] => .error .indexError
    | a :: b :: rest => do
      let tail ← pairUp rest
      .ok ((a ++ b) :: tail)

/-- Re-implementation of `_dir_conv`.  The direction components are taken at
an arbitrary type `α` with an embedding `lift` of parsed floats, because the
source passes plain floats for the fs/ss fields but possibly-None values for
the rail direction; only axes mentioned in the expression are overwritten. -/
def dir_conv {α : Type} (lift : ℚ → α) (direction_x direction_y direction_z : α)
    (value : Str) : Except PyErr (α × α × α) := do
  let items ← assplode_algebraic value
  if items = [] then
    .error (.runtimeError (chars ("Invalid direction: ") ++ value ++ chars (".")))
  else go items (direction_x, direction_y, direction_z)
where
  go : List Str → (α × α × α) → Except PyErr (α × α × α)
    | [], d => .ok d
    | item :: rest, (dx, dy, dz) => do
      match item.getLast? with
      | none => .error .indexError  -- unreachable: every item is nonempty
      | some axis =>
        if axis ≠ 'x' ∧ axis ≠ 'y' ∧ axis ≠ 'z' then
          .error (.runtimeError
            (chars ("Invalid Symbol: ") ++ [axis] ++ chars (" (must be x, y or z).")))
        else
          let body := item.dropLast
          let mag ← if body = chars ("+") then Except.ok (1 : ℚ)
            else if body = chars ("-") then Except.ok (-1 : ℚ)
            else match pyFloat body with
              | some q => Except.ok q
              | none => Except.error PyErr.valueError
          let d2 := if axis = 'x' then (lift mag, dy, dz)
            else if axis = 'y' then (dx, lift mag, dz)
            else (dx, dy, lift mag)
          go rest d2

/-- Re-implementation of `_set_dim_structure_entry`. -/
def set_dim_structure_entry (key value : Str) (panel : Panel) : Except PyErr Panel :=
  let dim := match panel.dim_structure with
    | some d => d
    | none => []
  match key.get? 3 with
  | none => .error (.runtimeError (chars ("'dim' must be followed by a number, e.g. 'dim0')")))
  | some c =>
    if c.isDigit then
      let dimIndex := c.toNat - 48
      let dim2 := if dimIndex + 1 > dim.length
        then dim ++ List.replicate (dimIndex + 1 - dim.length) none
        else dim
      if value = chars ("ss") then
        .ok { panel with dim_structure := some (dim2.set dimIndex (some .ss)) }
      else if value = chars ("fs") then
        .ok { panel with dim_structure := some (dim2.set dimIndex (some .fs)) }
      else if value = chars ("%") then
        .ok { panel with dim_structure := some (dim2.set dimIndex (some .holeMark)) }
      else if value ≠ [] ∧ value.all Char.isDigit then
        .ok { panel with dim_structure := some (dim2.set dimIndex (some (.num (digitsToNat value)))) }
      else
        .error (.runtimeError (chars ("Invalid dim entry: ") ++ value ++ chars (".")))
    else .error (.runtimeError (chars ("Invalid dimension number ") ++ [c]))

/-- The second half of the `_parse_field_for_panel` elif chain (from the
data field on); physically split from `parse_field_for_panel` only to keep
Lean case analysis tractable, semantics unchanged.  Note the final branch of
the source constructs `RuntimeError("Unrecognized field: ...")` but does not
raise it, so an unrecognized panel-scope field is silently ignored; the
embedding mirrors this by returning the panel unchanged. -/
def parse_field_for_panel_tail (key value : Str) (panel : Panel) : Except PyErr Panel :=
  if key = chars ("data") then
    if startsWith (chars ("/")) value then .ok { panel with data := some value }
    else .error (.runtimeError (chars ("Invalid data location: ") ++ value))
  else if key = chars ("mask") then
    if startsWith (chars ("/")) value then .ok { panel with mask := some value }
    else .error (.runtimeError (chars ("Invalid data location: ") ++ value))
  else if key = chars ("mask_file") then
    .ok { panel with mask_file := some value }
  else if key = chars ("saturation_map") then
    .ok { panel with saturation_map := some value }
  else if key = chars ("saturation_map_file") then
    .ok { panel with saturation_map_file := some value }
  else if key = chars ("coffset") then
    match pyFloat value with
    | some q => .ok { panel with coffset := q }
    | none => .error .valueError
  else if key = chars ("res") then
    match pyFloat value with
    | some q => .ok { panel with res := q }
    | none => .error .valueError
  else if key = chars ("max_adu") then
    .ok { panel with max_adu := .rawStr value }
  else if key = chars ("badrow_direction") then
    if value = chars ("x") then .ok { panel with badrow := chars ("f") }
    else if value = chars ("y") then .ok { panel with badrow := chars ("s") }
    else if value = chars ("f") then .ok { panel with badrow := chars ("f") }
    else if value = chars ("s") then .ok { panel with badrow := chars ("s") }
    else if value = chars ("-") then .ok { panel with badrow := chars ("-") }
    else .ok { panel with badrow := chars ("-") }  -- warning printed, not an error
  else if key = chars ("no_index") then
    .ok { panel with no_idx := value ≠ [] }  -- bool(value)
  else if key = chars ("fs") then
    match dir_conv (fun q => q) panel.fsx panel.fsy panel.fsz value with
    | .ok (x, y, z) => .ok { panel with fsx := x, fsy := y, fsz := z }
    | .error (.runtimeError m) =>
      .error (.runtimeError (chars ("Invalid fast scan direction.") ++ m))
    | .error e => .error e
  else if key = chars ("ss") then
    match dir_conv (fun q => q) panel.ssx panel.ssy panel.ssz value with
    | .ok (x, y, z) => .ok { panel with ssx := x, ssy := y, ssz := z }
    | .error (.runtimeError m) =>
      .error (.runtimeError (chars ("Invalid slow scan direction.") ++ m))
    | .error e => .error e
  else if startsWith (chars ("dim")) key then
    set_dim_structure_entry key value panel
  else
    .ok panel  -- the source builds an Unrecognized field error without raising it

/-- Re-implementation of `_parse_field_for_panel` (first half of the elif
chain; the rest is in `parse_field_for_panel_tail`). -/
def parse_field_for_panel (key value : Str) (panel : Panel) : Except PyErr Panel :=
  if key = chars ("min_fs") then
    match pyInt value with
    | some n => .ok { panel with origin_min_fs := some n, min_fs := some n }
    | none => .error .valueError
  else if key = chars ("max_fs") then
    match pyInt value with
    | some n => .ok { panel with origin_max_fs := some n, max_fs := some n }
    | none => .error .valueError
  else if key = chars ("min_ss") then
    match pyInt value with
    | some n => .ok { panel with origin_min_ss := some n, min_ss := some n }
    | none => .error .valueError
  else if key = chars ("max_ss") then
    match pyInt value with
    | some n => .ok { panel with origin_max_ss := some n, max_ss := some n }
    | none => .error .valueError
  else if key = chars ("corner_x") then
    match pyFloat value with
    | some q => .ok { panel with cnx := some q }
    | none => .error .valueError
  else if key = chars ("corner_y") then
    match pyFloat value with
    | some q => .ok { panel with cny := some q }
    | none => .error .valueError
  else if key = chars ("rail_direction") then
    match dir_conv some panel.rail_x panel.rail_y panel.rail_z value with
    | .ok (x, y, z) => .ok { panel with rail_x := x, rail_y := y, rail_z := z }
    | .error (.runtimeError m) =>
      .error (.runtimeError (chars ("Invalid rail direction. ") ++ m))
    | .error e => .error e
  else if key = chars ("clen_for_centering") then
    match pyFloat value with
    | some q => .ok { panel with clen_for_centering := some q }
    | none => .error .valueError
  else if key = chars ("adu_per_eV") then
    match pyFloat value with
    | some q => .ok { panel with adu_per_eV := some q }
    | none => .error .valueError
  else if key = chars ("adu_per_photon") then
    match pyFloat value with
    | some q => .ok { panel with adu_per_photon := some q }
    | none => .error .valueError
  else if key = chars ("rigid_group") then
    .ok { panel with rigid_group := some value }
  else if key = chars ("clen") then
    match pyFloat value with
    | some q => .ok { panel with clen := some q, clen_from := some none }
    | none => .ok { panel with clen := some (-1), clen_from := some (some value) }
  else parse_field_for_panel_tail key value panel

/-- Re-implementation of `_check_bad_fsss`. -/
def check_bad_fsss (bad : BadRegion) (is_fsss : Bool) : Except PyErr BadRegion :=
  if bad.is_fsss = .unsetTag then
    .ok { bad with is_fsss := if is_fsss then .fsssTag else .xyTag }
  else if (if is_fsss then FsssTag.fsssTag else FsssTag.xyTag) ≠ bad.is_fsss then
    .error (.runtimeError (chars ("You can't mix x/y and fs/ss in a bad region")))
  else .ok bad

/-- Re-implementation of `_parse_field_bad`.  Unlike the panel setter, the
unrecognized-field branch here really raises. -/
def parse_field_bad (key value : Str) (bad : BadRegion) : Except PyErr BadRegion :=
  if key = chars ("min_x") then
    match pyFloat value with
    | some q => check_bad_fsss { bad with min_x := some q } false
    | none => .error .valueError
  else if key = chars ("max_x") then
    match pyFloat value with
    | some q => check_bad_fsss { bad with max_x := some q } false
    | none => .error .valueError
  else if key = chars ("min_y") then
    match pyFloat value with
    | some q => check_bad_fsss { bad with min_y := some q } false
    | none => .error .valueError
  else if key = chars ("max_y") then
    match pyFloat value with
    | some q => check_bad_fsss { bad with max_y := some q } false
    | none => .error .valueError
  else if key = chars ("min_fs") then
    match pyInt value with
    | some n => check_bad_fsss { bad with min_fs := n } true
    | none => .error .valueError
  else if key = chars ("max_fs") then
    match pyInt value with
    | some n => check_bad_fsss { bad with max_fs := n } true
    | none => .error .valueError
  else if key = chars ("min_ss") then
    match pyInt value with
    | some n => check_bad_fsss { bad with min_ss := n } true
    | none => .error .valueError
  else if key = chars ("max_ss") then
    match pyInt value with
    | some n => check_bad_fsss { bad with max_ss := n } true
    | none => .error .valueError
  else if key = chars ("panel") then
    .ok { bad with panel := some value }
  else
    .error (.runtimeError (chars ("Unrecognized field: ") ++ key))

/-- Re-implementation of `_parse_toplevel`: the panel argument is the shared
default-panel record of the enclosing load. -/
def parse_toplevel (key value : Str) (detector : Detector) (beam : Beam)
    (panel : Panel) : Except PyErr (Detector × Beam × Panel) :=
  if key = chars ("mask_bad") then
    match pyInt value with
    | some n => .ok ({ detector with mask_bad := n }, beam, panel)
    | none =>
      match pyIntHex value with
      | some n => .ok ({ detector with mask_bad := n }, beam, panel)
      | none => .error .valueError
  else if key = chars ("mask_good") then
    match pyInt value with
    | some n => .ok ({ detector with mask_good := n }, beam, panel)
    | none =>
      match pyIntHex value with
      | some n => .ok ({ detector with mask_good := n }, beam, panel)
      | none => .error .valueError
  else if key = chars ("coffset") then
    match pyFloat value with
    | some q => .ok (detector, beam, { panel with coffset := q })
    | none => .error .valueError
  else if key = chars ("photon_energy") then
    if startsWith (chars ("/")) value then
      .ok (detector, { beam with photon_energy := 0, photon_energy_from := some value }, panel)
    else
      match pyFloat value with
      | some q => .ok (detector, { beam with photon_energy := q, photon_energy_from := none }, panel)
      | none => .error .valueError
  else if key = chars ("photon_energy_scale") then
    match pyFloat value with
    | some q => .ok (detector, { beam with photon_energy_scale := q }, panel)
    | none => .error .valueError
  else if key = chars ("peak_info_location") then
    .ok ({ detector with peak_info_location := some value }, beam, panel)
  else if startsWith (chars ("rigid_group")) key ∧
      ¬ startsWith (chars ("rigid_group_collection")) key then
    let groups := aset (key.drop 12) (splitComma value) detector.rigid_groups
    .ok ({ detector with rigid_groups := groups }, beam, panel)
  else if startsWith (chars ("rigid_group_collection")) key then
    let colls := aset (key.drop 23) (splitComma value) detector.rigid_group_collections
    .ok ({ detector with rigid_group_collections := colls }, beam, panel)
  else
    match parse_field_for_panel key value panel with
    | .ok p => .ok (detector, beam, p)
    | .error e => .error e

/-- The mutable state of one load: the growing beam and detector records plus
the shared default-panel record that top-level lines may mutate. -/
structure LoadState where
  beam : Beam := {}
  detector : Detector := {}
  default_panel : Panel := {}
deriving DecidableEq, Repr

instance : Inhabited Panel := ⟨{}⟩

instance : Inhabited (Str × Panel) := ⟨([], {})⟩

/-- The panel branch of the line loop: fetch the panel or deep-copy the
current default record on first mention, then apply the field setter. -/
def panelStep (st : LoadState) (name field value : Str) : Except PyErr LoadState :=
  let curr := match alookup name st.detector.panels with
    | some p => p
    | none => st.default_panel
  match parse_field_for_panel field value curr with
  | .ok p2 =>
    .ok { st with detector := { st.detector with panels := aset name p2 st.detector.panels } }
  | .error e => .error e

/-- The bad-region branch of the line loop. -/
def badStep (st : LoadState) (name field value : Str) : Except PyErr LoadState :=
  let curr := match alookup name st.detector.bad with
    | some b => b
    | none => ({} : BadRegion)
  match parse_field_bad field value curr with
  | .ok b2 =>
    .ok { st with detector := { st.detector with bad := aset name b2 st.detector.bad } }
  | .error e => .error e

/-- The top-level branch of the dispatch: run the top-level setter and
reassemble the load state. -/
def toplevelStep (st : LoadState) (key value : Str) : Except PyErr LoadState :=
  match parse_toplevel key value st.detector st.beam st.default_panel with
  | .ok (d, b, p) => .ok { beam := b, detector := d, default_panel := p }
  | .error e => .error e

/-- Dispatch of one key/value pair after tokenization: top-level scope for a
slash-free key, bad-region scope for entity names starting with "bad",
panel scope otherwise. -/
def dispatchKV (st : LoadState) (key value : Str) : Except PyErr LoadState :=
  match splitPath key with
  | name :: field :: _ =>
    if startsWith (chars ("bad")) name then badStep st name field value
    else panelStep st name field value
  | _ => toplevelStep st key value

/-- One iteration of the line loop of load_crystfel_geometry: comment lines
are skipped, trailing comments stripped, the line tokenized, and lines that
do not look like `key = value` silently ignored. -/
def processLine (st : LoadState) (line : Str) : Except PyErr LoadState :=
  if startsWith (chars (";")) line then .ok st
  else
    let lineWithoutComments := (pyStrip line).takeWhile (fun c => c ≠ ';')
    match tokenize lineWithoutComments with
    | item0 :: item1 :: rest =>
      if rest = [] then .ok st  -- fewer than 3 items
      else
        let value := rest.flatten
        if item1 ≠ chars ("=") then .ok st
        else dispatchKV st item0 value
    | _ => .ok st

/-- The default dim structure filled in for panels with no explicit one. -/
def default_dim : List (Option DimEntry) := [some .ss, some .fs]

/-- Message for a placeholder-count mismatch. -/
def placeholdersMsg : Str :=
  chars ("All panels' data and mask entries must have the same number of placeholders.")

/-- The placeholder count of a dim structure: entries equal to "%". -/
def count_dim_placeholders (p : Panel) : ℤ :=
  match p.dim_structure with
  | some d => ((d.filter (fun e => e = some .holeMark)).length : ℤ)
  | none => 0

/-- The placeholder count of a mask string: occurrences of the character %. -/
def count_mask_placeholders (p : Panel) : ℤ :=
  match p.mask with
  | some m => ((m.filter (fun c => c = '%')).length : ℤ)
  | none => 0

/-- First validation loop: all panels must agree on the dim placeholder
count; returns that count. -/
def placeholderPass (d : Detector) : Except PyErr (Option ℤ) :=
  d.panels.foldlM
    (fun acc np =>
      let c := count_dim_placeholders np.2
      match acc with
      | none => .ok (some c)
      | some c0 =>
        if c ≠ c0 then .error (.runtimeError placeholdersMsg) else .ok (some c0))
    none

/-- Second validation loop: all panels must agree on the mask placeholder
count; returns that count. -/
def maskPass (d : Detector) : Except PyErr (Option ℤ) :=
  d.panels.foldlM
    (fun acc np =>
      let c := count_mask_placeholders np.2
      match acc with
      | none => .ok (some c)
      | some c0 =>
        if c ≠ c0 then .error (.runtimeError placeholdersMsg) else .ok (some c0))
    none

/-- Walks a dim structure, failing on an undefined entry and otherwise
returning the counts of ss, fs and placeholder entries (in that order). -/
def checkDimEntries (name : Str) : Nat → List (Option DimEntry) → Except PyErr (Nat × Nat × Nat)
  | _, [] => .ok (0, 0, 0)
  | i, e :: rest =>
    match e with
    | none =>
      .error (.runtimeError (chars ("Dimension ") ++ natChars i ++ chars (" for panel ")
        ++ name ++ chars (" is undefined.")))
    | some de => do
      let (a, b, c) ← checkDimEntries name (i + 1) rest
      match de with
      | .ss => .ok (a + 1, b, c)
      | .fs => .ok (a, b + 1, c)
      | .holeMark => .ok (a, b, c + 1)
      | .num _ => .ok (a, b, c)

/-- One iteration of the third validation loop: per-panel dim-structure
validity, the default fill-in, and the common-length bookkeeping. -/
def dimsStep (acc : List (Str × Panel) × Option Nat) (np : Str × Panel) :
    Except PyErr (List (Str × Panel) × Option Nat) := do
  let (done, dimLen) := acc
  let (name, p0) := np
  let p := if p0.dim_structure = none
    then { p0 with dim_structure := some default_dim } else p0
  let dim := p.dim_structure.getD []
  let (foundSs, foundFs, foundPlaceholder) ← checkDimEntries name 0 dim
  if foundSs ≠ 1 then
    .error (.runtimeError (chars ("Exactly one slow scan dim coordinate is needed (found ")
      ++ natChars foundSs ++ chars (" for panel ") ++ name ++ chars (").")))
  else if foundFs ≠ 1 then
    .error (.runtimeError (chars ("Exactly one fast scan dim coordinate is needed (found ")
      ++ natChars foundFs ++ chars (" for panel ") ++ name ++ chars (").")))
  else if foundPlaceholder > 1 then
    .error (.runtimeError (chars ("Only one placeholder dim coordinate is allowed. Maximum one placeholder dim coordinate is allowed (found ")
      ++ natChars foundPlaceholder ++ chars (" for panel ") ++ name ++ chars (")")))
  else do
    let dimLen2 ← match dimLen with
      | none => Except.ok (some dim.length)
      | some l =>
        if l ≠ dim.length then
          Except.error (PyErr.runtimeError
            (chars ("Number of dim coordinates must be the same for all panels.")))
        else Except.ok (some l)
    if dimLen2 = some 1 then
      .error (.runtimeError (chars ("Number of dim coordinates must be at least two.")))
    else .ok (done ++ [(name, p)], dimLen2)

/-- Third validation loop: per-panel dim-structure validity plus a common
length across panels; fills the default dim structure where absent. -/
def dimsPass (d : Detector) : Except PyErr Detector := do
  let acc ← d.panels.foldlM dimsStep ([], none)
  .ok { d with panels := acc.1 }

/-- The rail-direction and centering defaults the completeness loop fills in
before deriving the width and height. -/
def railCenterDefaults (p : Panel) : Panel :=
  let p := if p.rail_x = none
    then { p with rail_x := some 0, rail_y := some 0, rail_z := some 1 } else p
  if p.clen_for_centering = none
    then { p with clen_for_centering := some 0 } else p

/-- The tail of the per-panel completeness check after the four extent
lookups: the remaining required-field checks, the rail and centering
defaults, and the derived width and height. -/
def completenessTail (name : Str) (p : Panel) (ominfs omaxfs ominss omaxss : ℤ) :
    Except PyErr Panel := do
  if p.cnx = none then
    .error (.runtimeError (chars ("Please specify the corner X coordinate for panel ")
      ++ name ++ chars ("."))) else do
  let _ ← match p.clen with
    | some _ => Except.ok ()
    | none =>
      match p.clen_from with
      | none => Except.error (PyErr.keyError (chars ("clen_from")))
      | some none => Except.error (PyErr.runtimeError
          (chars ("Please specify the camera length for panel ") ++ name ++ chars (".")))
      | some (some _) => Except.ok ()
  if p.res < 0 then
    .error (.runtimeError (chars ("Please specify the resolution or panel ")
      ++ name ++ chars ("."))) else do
  if p.adu_per_eV = none ∧ p.adu_per_photon = none then
    .error (.runtimeError (chars ("Please specify either adu_per_eV or adu_per_photon for panel ")
      ++ name ++ chars ("."))) else do
  if p.clen_for_centering = none ∧ p.rail_x ≠ none then
    .error (.runtimeError (chars ("You must specify clen_for_centering if you specify the rail direction (panel ")
      ++ name ++ chars (")"))) else
  .ok { railCenterDefaults p with
        w := some (omaxfs - ominfs + 1), h := some (omaxss - ominss + 1) }

/-- Per-panel completeness checks (required fields), rail and centering
defaults, and the derived width and height. -/
def completenessPanel (name : Str) (p : Panel) : Except PyErr Panel := do
  let ominfs ← match p.origin_min_fs with
    | some v => Except.ok v
    | none => Except.error (PyErr.keyError (chars ("origin_min_fs")))
  if ominfs < 0 then
    .error (.runtimeError (chars ("Please specify the minimum fs coordinate for panel ")
      ++ name ++ chars ("."))) else do
  let omaxfs ← match p.origin_max_fs with
    | some v => Except.ok v
    | none => Except.error (PyErr.keyError (chars ("origin_max_fs")))
  if omaxfs < 0 then
    .error (.runtimeError (chars ("Please specify the maximum fs coordinate for panel ")
      ++ name ++ chars ("."))) else do
  let ominss ← match p.origin_min_ss with
    | some v => Except.ok v
    | none => Except.error (PyErr.keyError (chars ("origin_min_ss")))
  if ominss < 0 then
    .error (.runtimeError (chars ("Please specify the minimum ss coordinate for panel ")
      ++ name ++ chars ("."))) else do
  let omaxss ← match p.origin_max_ss with
    | some v => Except.ok v
    | none => Except.error (PyErr.keyError (chars ("origin_max_ss")))
  if omaxss < 0 then
    .error (.runtimeError (chars ("Please specify the maximum ss coordinate for panel ")
      ++ name ++ chars ("."))) else
  completenessTail name p ominfs omaxfs ominss omaxss

/-- Rebuilds the panel map by applying a per-panel validation step in
order, as the fourth and eighth validation loops do. -/
def mapPanelsM (F : Str → Panel → Except PyErr Panel) (d : Detector) :
    Except PyErr Detector := do
  let panels2 ← d.panels.foldlM
    (fun acc np => do
      let p2 ← F np.1 np.2
      Except.ok (acc ++ [(np.1, p2)]))
    []
  .ok { d with panels := panels2 }

/-- Fourth validation loop: completeness of every panel. -/
def completenessPass (d : Detector) : Except PyErr Detector :=
  mapPanelsM completenessPanel d

/-- Fifth validation loop: every bad region must have resolved its kind. -/
def badPass (d : Detector) : Except PyErr Unit :=
  d.bad.foldlM
    (fun _ nb =>
      if nb.2.is_fsss = .unsetTag then
        .error (.runtimeError (chars ("Please specify the coordinate ranges for bad region ")
          ++ nb.1 ++ chars (".")))
      else .ok ())
    ()

/-- Sixth validation loop: rigid groups may reference only existing panels. -/
def rigidPass (d : Detector) : Except PyErr Unit :=
  d.rigid_groups.foldlM
    (fun _ g =>
      g.2.foldlM
        (fun _ nm =>
          if alookup nm d.panels = none then
            .error (.runtimeError (chars ("Cannot add panel to rigid_group. Panel not found: ") ++ nm))
          else .ok ())
        ())
    ()

/-- Seventh validation loop: collections may reference only existing rigid
groups. -/
def collectionsPass (d : Detector) : Except PyErr Unit :=
  d.rigid_group_collections.foldlM
    (fun _ g =>
      g.2.foldlM
        (fun _ nm =>
          if alookup nm d.rigid_groups = none then
            .error (.runtimeError (chars ("Cannot add rigid_group to collection. Rigid group not found: ") ++ nm))
          else .ok ())
        ())
    ()

/-- The determinant of the fast/slow-scan transform of a panel. -/
def panelDet (p : Panel) : ℚ := p.fsx * p.ssy - p.ssx * p.fsy

/-- Singularity check and inverse coefficients for one panel.  The message
keeps the literal braces because the source forgot the .format call. -/
def singularPanel (p : Panel) : Except PyErr Panel :=
  let den := panelDet p
  if den = 0 then
    .error (.runtimeError (chars ("Panel \x7b\x7d transformation is singular.")))
  else
    .ok { p with xfs := some (p.ssy / den), yfs := some (p.ssx / den),
                 xss := some (p.fsy / den), yss := some (p.fsx / den) }

/-- Eighth validation loop: per-panel transform invertibility. -/
def singularPass (d : Detector) : Except PyErr Detector :=
  mapPanelsM (fun _ p => singularPanel p) d

/-- The running state of the extremal-distance scan.  Distances are
represented by their squares: math.sqrt is strictly monotone on nonnegative
floats, so every comparison the source makes on distances has the same
outcome on squared distances; the initial float("inf") minimum is modelled
as `none` and the initial 0.0 maximum as the square 0. -/
structure ScanState where
  min_d_sq : Option ℚ
  max_d_sq : ℚ
  det : Detector
deriving DecidableEq, Repr

/-- The squared distance evaluated by `_check_point` for a corner; the junk
value 0 is only returned where the source would raise before computing it. -/
def distSqOf (p : Panel) (fs ss : ℤ) : ℚ :=
  match p.cnx, p.cny with
  | some cx, some cy =>
    ((fs * p.fsx + ss * p.ssx + cx) / p.res) * ((fs * p.fsx + ss * p.ssx + cx) / p.res)
      + ((fs * p.fsy + ss * p.ssy + cy) / p.res) * ((fs * p.fsy + ss * p.ssy + cy) / p.res)
  | _, _ => 0

/-- Re-implementation of `_check_point`: updates the furthest-out fields when
the distance strictly exceeds the running maximum, otherwise (elif) the
furthest-in fields when it is strictly below the running minimum. -/
def check_point (name : Str) (p : Panel) (fs ss : ℤ) (st : ScanState) :
    Except PyErr ScanState :=
  match p.cnx, p.cny with
  | some _, some _ =>
    if p.res = 0 then .error .zeroDivisionError
    else
      let dsq := distSqOf p fs ss
      if dsq > st.max_d_sq then
        let det2 := { st.det with furthest_out_panel := some name, furthest_out_fs := some fs, furthest_out_ss := some ss }
        .ok { st with max_d_sq := dsq, det := det2 }
      else if (match st.min_d_sq with | none => true | some m => dsq < m) then
        let det2 := { st.det with furthest_in_panel := some name, furthest_in_fs := some fs, furthest_in_ss := some ss }
        .ok { st with min_d_sq := some dsq, det := det2 }
      else .ok st
  | _, _ => .error .typeError  -- a None corner coordinate is summed by the source

/-- The four corner evaluations of one panel in source order. -/
def scanPanel (st : ScanState) (np : Str × Panel) : Except PyErr ScanState := do
  let (name, p) := np
  let st1 ← check_point name p 0 0 st
  let w ← dictLookup p.w (chars ("w"))
  let st2 ← check_point name p w 0 st1
  let h ← dictLookup p.h (chars ("h"))
  let st3 ← check_point name p 0 h st2
  check_point name p w h st3

/-- Re-implementation of `_find_min_max_d`. -/
def find_min_max_d (d : Detector) : Except PyErr Detector := do
  let st ← d.panels.foldlM scanPanel { min_d_sq := none, max_d_sq := 0, det := d }
  .ok st.det

/-- The third through ninth validation loops in source order. -/
def validateTail (d : Detector) : Except PyErr Detector := do
  let d ← dimsPass d
  let d ← completenessPass d
  let _ ← badPass d
  let _ ← rigidPass d
  let _ ← collectionsPass d
  let d ← singularPass d
  find_min_max_d d

/-- The validation phase of load_crystfel_geometry, run after all lines. -/
def validateDetector (d : Detector) : Except PyErr Detector := do
  if d.panels = [] then
    .error (.runtimeError (chars ("No panel descriptions in geometry file.")))
  else do
    let nPanels ← placeholderPass d
    let nMasks ← maskPass d
    let _ ← match nMasks, nPanels with
      | some a, some b =>
        if a > b then
          Except.error (PyErr.runtimeError
            (chars ("Number of placeholders in mask cannot be larger the number than for data.")))
        else Except.ok ()
      | _, _ => Except.ok ()  -- unreachable: the panel list is nonempty here
    validateTail d

/-- Re-implementation of load_crystfel_geometry on the list of lines of the
geometry file (reading the file itself is I/O and out of scope; I/O errors
are the only ones the source wraps, all parse errors propagate unchanged). -/
def load_crystfel_geometry (lines : List Str) : Except PyErr Detector := do
  let st ← lines.foldlM processLine {}
  validateDetector st.detector

/-- The five pixel maps of compute_pix_maps; the grids have numpy shape
`(rows, cols)` and are modelled as total functions on integer indices, with
writes confined to the panel windows exactly as the slice assignments of the
source are (every loaded model has windows inside the allocated shape). -/
structure PixelMaps where
  rows : ℤ
  cols : ℤ
  x : ℤ → ℤ → ℚ
  y : ℤ → ℤ → ℚ
  z : ℤ → ℤ → ℚ
  r : ℤ → ℤ → ℚ
  phi : ℤ → ℤ → ℚ

/-- Lookup of the max_fs key of a panel. -/
def panelMaxFs (np : Str × Panel) : Except PyErr ℤ :=
  dictLookup np.2.max_fs (chars ("max_fs"))

/-- Lookup of the max_ss key of a panel. -/
def panelMaxSs (np : Str × Panel) : Except PyErr ℤ :=
  dictLookup np.2.max_ss (chars ("max_ss"))

/-- numpy `.max()` of a list; empty input raises ValueError. -/
def listMaxInt : List ℤ → Except PyErr ℤ
  | [] => .error .valueError
  | v :: vs => .ok (vs.foldl max v)

/-- Whether the slice window of a panel contains the global cell (i, j). -/
def coversCell (p : Panel) (i j : ℤ) : Bool :=
  match p.min_ss, p.max_ss, p.min_fs, p.max_fs with
  | some a, some b, some c, some d => decide (a ≤ i ∧ i ≤ b ∧ c ≤ j ∧ j ≤ d)
  | _, _, _, _ => false

/-- One iteration of the panel loop of compute_pix_maps: the slice windows of
the x, y and z grids are overwritten with the affine panel values and the
camera length.  A stored None camera length or corner would make numpy raise
at the arithmetic, modelled by typeError; the key-presence test on clen is
always true for records of this embedding. -/
def placePanel (acc : (ℤ → ℤ → ℚ) × (ℤ → ℤ → ℚ) × (ℤ → ℤ → ℚ)) (np : Str × Panel) :
    Except PyErr ((ℤ → ℤ → ℚ) × (ℤ → ℤ → ℚ) × (ℤ → ℤ → ℚ)) := do
  let p := np.2
  let panClen ← valueOrTypeError p.clen
  let mss ← dictLookup p.min_ss (chars ("min_ss"))
  let mfs ← dictLookup p.min_fs (chars ("min_fs"))
  let cnx ← valueOrTypeError p.cnx
  let cny ← valueOrTypeError p.cny
  let (xm, ym, zm) := acc
  let x2 : ℤ → ℤ → ℚ := fun i j =>
    if coversCell p i j then (i - mss) * p.ssx + (j - mfs) * p.fsx + cnx else xm i j
  let y2 : ℤ → ℤ → ℚ := fun i j =>
    if coversCell p i j then (i - mss) * p.ssy + (j - mfs) * p.fsy + cny else ym i j
  let z2 : ℤ → ℤ → ℚ := fun i j =>
    if coversCell p i j then panClen else zm i j
  .ok (x2, y2, z2)

/-- Re-implementation of compute_pix_maps.  numpy sqrt and arctan2 are taken
as parameters and applied elementwise exactly where the source applies them;
no other use is made of them. -/
def compute_pix_maps (sqrtQ : ℚ → ℚ) (atan2Q : ℚ → ℚ → ℚ) (g : Detector) :
    Except PyErr PixelMaps := do
  let maxFsList ← g.panels.mapM panelMaxFs
  let max_fs_in_slab ← listMaxInt maxFsList
  let maxSsList ← g.panels.mapM panelMaxSs
  let max_ss_in_slab ← listMaxInt maxSsList
  let _ ← if max_ss_in_slab + 1 < 0 ∨ max_fs_in_slab + 1 < 0
    then Except.error PyErr.valueError  -- numpy.zeros rejects negative dims
    else Except.ok ()
  let zeroGrid : ℤ → ℤ → ℚ := fun _ _ => 0
  let (xm, ym, zm) ← g.panels.foldlM placePanel (zeroGrid, zeroGrid, zeroGrid)
  .ok { rows := max_ss_in_slab + 1, cols := max_fs_in_slab + 1,
        x := xm, y := ym, z := zm,
        r := fun i j => sqrtQ (xm i j * xm i j + ym i j * ym i j),
        phi := fun i j => atan2Q (ym i j) (xm i j) }

/-- The cells of a `(rows, cols)` grid in row-major (C, numpy ravel) order. -/
def cellList (rows cols : ℤ) : List (ℤ × ℤ) :=
  (List.range rows.toNat).flatMap (fun i => (List.range cols.toNat).map (fun j => ((i : ℤ), (j : ℤ))))

/-- numpy `.max()` over a full grid (the guard in the caller keeps it off the
empty case, where numpy raises). -/
def gridMax (rows cols : ℤ) (f : ℤ → ℤ → ℚ) : ℚ :=
  match (cellList rows cols).map (fun c => f c.1 c.2) with
  | [] => 0
  | v :: vs => vs.foldl max v

/-- numpy `.min()` over a full grid. -/
def gridMin (rows cols : ℤ) (f : ℤ → ℤ → ℚ) : ℚ :=
  match (cellList rows cols).map (fun c => f c.1 c.2) with
  | [] => 0
  | v :: vs => vs.foldl min v

/-- Re-implementation of compute_min_array_size: twice the truncated largest
absolute coordinate plus two, per axis; `(height, width)` order. -/
def compute_min_array_size (m : PixelMaps) : Except PyErr (ℤ × ℤ) :=
  if m.rows ≤ 0 ∨ m.cols ≤ 0 then .error .valueError  -- numpy max/min of empty
  else
    let y_minimum := 2 * pyTrunc (max |gridMax m.rows m.cols m.y| |gridMin m.rows m.cols m.y|) + 2
    let x_minimum := 2 * pyTrunc (max |gridMax m.rows m.cols m.x| |gridMin m.rows m.cols m.x|) + 2
    .ok (y_minimum, x_minimum)

/-- The visualization pixel maps: integer x and y maps, and the z, r and phi
slots of the returned tuple explicitly set to None. -/
structure VizPixelMaps where
  rows : ℤ
  cols : ℤ
  x : ℤ → ℤ → ℤ
  y : ℤ → ℤ → ℤ
  z : Option (ℤ → ℤ → ℚ)
  r : Option (ℤ → ℤ → ℚ)
  phi : Option (ℤ → ℤ → ℚ)

/-- Re-implementation of compute_visualization_pix_maps: recomputes the pixel
maps, truncates them to integers (the numpy int cast truncates toward zero)
and shifts by half the minimal canvas size minus one. -/
def compute_visualization_pix_maps (sqrtQ : ℚ → ℚ) (atan2Q : ℚ → ℚ → ℚ)
    (g : Detector) : Except PyErr VizPixelMaps := do
  let m ← compute_pix_maps sqrtQ atan2Q g
  let minShape ← compute_min_array_size m
  .ok { rows := m.rows, cols := m.cols,
        x := fun i j => pyTrunc (m.x i j) + Int.fdiv minShape.2 2 - 1,
        y := fun i j => pyTrunc (m.y i j) + Int.fdiv minShape.1 2 - 1,
        z := none, r := none, phi := none }

/-- The output canvas of apply_geometry_to_data. -/
structure Canvas where
  rows : ℤ
  cols : ℤ
  val : ℤ → ℤ → ℚ

/-- Sequential fancy-index assignment: each write sets one cell, later
writes at the same cell overwriting earlier ones. -/
def scatterWrites (c0 : ℤ → ℤ → ℚ) (writes : List ((ℤ × ℤ) × ℚ)) : ℤ → ℤ → ℚ :=
  writes.foldl (fun c wr => fun i j => if i = wr.1.1 ∧ j = wr.1.2 then wr.2 else c i j) c0

/-- The flattened write list of apply_geometry_to_data: the visualization
maps and the data are raveled in the same row-major order (numpy requires
the data array to have the size of the maps; the data argument is modelled
as a function sampled on exactly those cells). -/
def flatWrites (viz : VizPixelMaps) (data : ℤ → ℤ → ℚ) : List ((ℤ × ℤ) × ℚ) :=
  (cellList viz.rows viz.cols).map
    (fun c => ((viz.y c.1 c.2, viz.x c.1 c.2), data c.1 c.2))

/-- Re-implementation of apply_geometry_to_data: a zero canvas of the minimal
size, with the flattened data scattered through the visualization maps. -/
def apply_geometry_to_data (sqrtQ : ℚ → ℚ) (atan2Q : ℚ → ℚ → ℚ)
    (data : ℤ → ℤ → ℚ) (g : Detector) : Except PyErr Canvas := do
  let m ← compute_pix_maps sqrtQ atan2Q g
  let minArrayShape ← compute_min_array_size m
  let viz ← compute_visualization_pix_maps sqrtQ atan2Q g
  .ok { rows := minArrayShape.1, cols := minArrayShape.2,
        val := scatterWrites (fun _ _ => 0) (flatWrites viz data) }

deriving instance DecidableEq for Except

/-! Concrete geometry files used by the claim theorems. -/

/-- A minimal complete one-panel geometry, with an extra assignment to the
unrecognized panel-scope field name garbage. -/
def linesUnrecPanel : List Str :=
  [chars ("p0/min_fs = 0"), chars ("p0/max_fs = 9"), chars ("p0/min_ss = 0"),
   chars ("p0/max_ss = 4"), chars ("p0/corner_x = 0"), chars ("p0/corner_y = 0"),
   chars ("p0/fs = x"), chars ("p0/ss = y"), chars ("p0/clen = 0.1"),
   chars ("p0/res = 1000"), chars ("p0/adu_per_eV = 1"), chars ("p0/garbage = 1")]

/-- The same minimal geometry with an unrecognized field at bad-region scope
instead. -/
def linesUnrecBad : List Str :=
  [chars ("p0/min_fs = 0"), chars ("p0/max_fs = 9"), chars ("p0/min_ss = 0"),
   chars ("p0/max_ss = 4"), chars ("p0/corner_x = 0"), chars ("p0/corner_y = 0"),
   chars ("p0/fs = x"), chars ("p0/ss = y"), chars ("p0/clen = 0.1"),
   chars ("p0/res = 1000"), chars ("p0/adu_per_eV = 1"), chars ("bad_a/garbage = 1")]

/-- The C1 theorem (code bug): a line assigning the unrecognized field name
garbage at panel scope is silently ignored (the source constructs the
RuntimeError but never raises it) and the load succeeds, while the very same
assignment at bad-region scope makes the load fail with the
unrecognized-field error, contrary to the claim that both scopes fail. -/
theorem c1_unrecognized_panel_field_is_silently_ignored :
    (load_crystfel_geometry linesUnrecPanel).isOk = true ∧
    load_crystfel_geometry linesUnrecBad =
      .error (.runtimeError (chars ("Unrecognized field: ") ++ chars ("garbage"))) := by
  constructor
  · decide
  · decide

/-- A geometry whose panel p0 assigns every required field except min_fs. -/
def linesMissingMinFs : List Str :=
  [chars ("p0/max_fs = 9"), chars ("p0/min_ss = 0"), chars ("p0/max_ss = 4"),
   chars ("p0/corner_x = 0"), chars ("p0/corner_y = 0"), chars ("p0/clen = 0.1"),
   chars ("p0/res = 1000"), chars ("p0/adu_per_eV = 1")]

/-- The C3 theorem (code bug): when a panel never assigns min_fs, the load
fails with the bare dictionary KeyError on origin_min_fs, because the
default-panel record carries no extent keys and the lookup in the
completeness check precedes the descriptive error; the descriptive message
naming the missing field and the panel is never reached. -/
theorem c3_missing_min_fs_fails_with_keyerror :
    load_crystfel_geometry linesMissingMinFs =
      .error (.keyError (chars ("origin_min_fs"))) := by
  decide

/-- A one-panel geometry whose camera length is the dynamic source path
/x/clen (which does not parse as a float). -/
def linesClenFrom : List Str :=
  [chars ("p0/min_fs = 0"), chars ("p0/max_fs = 0"), chars ("p0/min_ss = 0"),
   chars ("p0/max_ss = 0"), chars ("p0/corner_x = 0"), chars ("p0/corner_y = 0"),
   chars ("p0/clen = /x/clen"), chars ("p0/res = 1"), chars ("p0/adu_per_eV = 1")]

/-- Counterexample to C2: the model loaded from `linesClenFrom` has panel p0
with the dynamic camera-length source stored in clen_from, yet
compute_pix_maps fills the z window of that panel with the stored sentinel
-1.0, not with 0.0 as the claim states. -/
theorem c2_counterexample :
    (load_crystfel_geometry linesClenFrom).map
        (fun d => (alookup (chars ("p0")) d.panels).map Panel.clen_from) =
      .ok (some (some (some (chars ("/x/clen"))))) ∧
    ((load_crystfel_geometry linesClenFrom).bind
        (compute_pix_maps (fun q => q) (fun a b => a - b))).map (fun m => m.z 0 0) =
      .ok (-1) ∧
    (-1 : ℚ) ≠ 0 := by
  refine ⟨by decide, by decide, by decide⟩

/-- The minimal spec geometry with fs = x and ss = x assigned to the panel
(plus an explicit corner_y, which the distance scan needs). -/
def linesFsxSsx : List Str :=
  [chars ("p0/min_fs = 0"), chars ("p0/max_fs = 9"), chars ("p0/min_ss = 0"),
   chars ("p0/max_ss = 4"), chars ("p0/corner_x = 0"), chars ("p0/corner_y = 0"),
   chars ("p0/fs = x"), chars ("p0/ss = x"), chars ("p0/clen = 0.1"),
   chars ("p0/res = 1000"), chars ("p0/adu_per_eV = 1")]

/-- Counterexample to C4: a panel with fs = x and ss = x loads successfully,
because the direction parser overwrites only the mentioned axis, leaving the
default ssy = 1 in place; the resulting directions are fs = (1,0) and
ss = (1,1) with determinant 1, so no singularity error is raised. -/
theorem c4_counterexample :
    (load_crystfel_geometry linesFsxSsx).isOk = true ∧
    (load_crystfel_geometry linesFsxSsx).map
        (fun d => (alookup (chars ("p0")) d.panels).map
          (fun p => (p.fsx, p.fsy, p.ssx, p.ssy))) =
      .ok (some (1, 0, 1, 1)) := by
  refine ⟨by decide, by decide⟩

/-- A one-panel geometry whose four corner distances are strictly
increasing in scan order: corner (0,0) is at squared distance 1, (1,0) at 4,
(0,10) at 101, (1,10) at 104. -/
def linesIncreasingCorners : List Str :=
  [chars ("p0/min_fs = 0"), chars ("p0/max_fs = 0"), chars ("p0/min_ss = 0"),
   chars ("p0/max_ss = 9"), chars ("p0/corner_x = 1"), chars ("p0/corner_y = 0"),
   chars ("p0/clen = 0.1"), chars ("p0/res = 1"), chars ("p0/adu_per_eV = 1")]

/-- Counterexample to C7: this geometry loads successfully, yet the returned
model does not contain the furthest_in fields at all: every corner strictly
raises the running maximum, and the elif in the scan then never considers it
for the minimum, so the fields are never assigned.  The claimed corner of
minimal distance, (fs, ss) = (0, 0) of panel p0, is therefore not
identified by any field. -/
theorem c7_counterexample :
    (load_crystfel_geometry linesIncreasingCorners).isOk = true ∧
    (load_crystfel_geometry linesIncreasingCorners).map Detector.furthest_in_panel =
      .ok none ∧
    (load_crystfel_geometry linesIncreasingCorners).map Detector.furthest_in_fs =
      .ok none ∧
    (load_crystfel_geometry linesIncreasingCorners).map Detector.furthest_in_ss =
      .ok none := by
  refine ⟨by decide, by decide, by decide, by decide⟩

/-- An axis character is mentioned by a term list when some term has it as
trailing character. -/
def mentionsAxis (items : List Str) (c : Char) : Prop :=
  ∃ it ∈ items, it.getLast? = some c

lemma dir_conv_go_ok_elim {α : Type} (lift : ℚ → α) (item : Str) (rest : List Str)
    (d res : α × α × α) (h : dir_conv.go lift (item :: rest) d = .ok res) :
    ∃ axis, item.getLast? = some axis ∧
      ¬(axis ≠ 'x' ∧ axis ≠ 'y' ∧ axis ≠ 'z') ∧
      ∃ mag : ℚ, dir_conv.go lift rest
        (if axis = 'x' then (lift mag, d.2.1, d.2.2)
         else if axis = 'y' then (d.1, lift mag, d.2.2)
         else (d.1, d.2.1, lift mag)) = .ok res := by
  obtain ⟨dx, dy, dz⟩ := d
  simp only [dir_conv.go, Bind.bind, Except.bind] at h
  split at h
  · exact absurd h (by simp)
  next axis hlast =>
    split at h
    · exact absurd h (by simp)
    next hgood =>
      refine ⟨axis, hlast, hgood, ?_⟩
      split at h
      · exact ⟨1, h⟩
      split at h
      · exact ⟨-1, h⟩
      split at h
      next q hf => exact ⟨q, h⟩
      · exact absurd h (by simp)

lemma dir_conv_go_x_preserved {α : Type} (lift : ℚ → α) :
    ∀ (items : List Str) (d res : α × α × α),
      dir_conv.go lift items d = .ok res →
      (∀ it ∈ items, it.getLast? ≠ some 'x') → res.1 = d.1
  | [], d, res, h, _ => by
    simp only [dir_conv.go] at h
    cases h; rfl
  | item :: rest, d, res, h, hax => by
    obtain ⟨axis, hlast, -, mag, hrest⟩ := dir_conv_go_ok_elim lift item rest d res h
    have hx : axis ≠ 'x' := by
      intro hk; exact hax item (List.mem_cons_self item rest) (hk ▸ hlast)
    have := dir_conv_go_x_preserved lift rest _ res hrest
      (fun it hit => hax it (List.mem_cons_of_mem item hit))
    rw [this]
    by_cases hy : axis = 'y' <;> simp [hx, hy]

lemma dir_conv_go_y_preserved {α : Type} (lift : ℚ → α) :
    ∀ (items : List Str) (d res : α × α × α),
      dir_conv.go lift items d = .ok res →
      (∀ it ∈ items, it.getLast? ≠ some 'y') → res.2.1 = d.2.1
  | [], d, res, h, _ => by
    simp only [dir_conv.go] at h
    cases h; rfl
  | item :: rest, d, res, h, hax => by
    obtain ⟨axis, hlast, -, mag, hrest⟩ := dir_conv_go_ok_elim lift item rest d res h
    have hy : axis ≠ 'y' := by
      intro hk; exact hax item (List.mem_cons_self item rest) (hk ▸ hlast)
    have := dir_conv_go_y_preserved lift rest _ res hrest
      (fun it hit => hax it (List.mem_cons_of_mem item hit))
    rw [this]
    by_cases hx : axis = 'x' <;> simp [hx, hy]

lemma dir_conv_go_z_preserved {α : Type} (lift : ℚ → α) :
    ∀ (items : List Str) (d res : α × α × α),
      dir_conv.go lift items d = .ok res →
      (∀ it ∈ items, it.getLast? ≠ some 'z') → res.2.2 = d.2.2
  | [], d, res, h, _ => by
    simp only [dir_conv.go] at h
    cases h; rfl
  | item :: rest, d, res, h, hax => by
    obtain ⟨axis, hlast, hgood, mag, hrest⟩ := dir_conv_go_ok_elim lift item rest d res h
    have hz : axis ≠ 'z' := by
      intro hk; exact hax item (List.mem_cons_self item rest) (hk ▸ hlast)
    have := dir_conv_go_z_preserved lift rest _ res hrest
      (fun it hit => hax it (List.mem_cons_of_mem item hit))
    rw [this]
    have hxy : axis = 'x' ∨ axis = 'y' := by
      by_contra hc
      push_neg at hc
      exact hgood ⟨hc.1, hc.2, hz⟩
    rcases hxy with hx | hy
    · simp [hx]
    · have hx : axis ≠ 'x' := by rw [hy]; decide
      simp [hx, hy]

lemma dir_conv_go_bad_axis_fails {α : Type} (lift : ℚ → α) :
    ∀ (items : List Str) (d : α × α × α) (it : Str) (c : Char),
      it ∈ items → it.getLast? = some c → c ≠ 'x' → c ≠ 'y' → c ≠ 'z' →
      (dir_conv.go lift items d).isOk = false
  | [], _, _, _, hmem, _, _, _, _ => absurd hmem (List.not_mem_nil _)
  | item :: rest, d, it, c, hmem, hlast, hx, hy, hz => by
    rcases hres : dir_conv.go lift (item :: rest) d with e | res
    · rfl
    exfalso
    obtain ⟨axis, hlast2, hgood, mag, hrest⟩ := dir_conv_go_ok_elim lift item rest d res hres
    rcases List.mem_cons.mp hmem with heq | hmem2
    · subst heq
      rw [hlast] at hlast2
      cases hlast2
      exact hgood ⟨hx, hy, hz⟩
    · have := dir_conv_go_bad_axis_fails lift rest
        (if axis = 'x' then (lift mag, d.2.1, d.2.2)
         else if axis = 'y' then (d.1, lift mag, d.2.2)
         else (d.1, d.2.1, lift mag)) it c hmem2 hlast hx hy hz
      rw [hrest] at this
      simp [Except.isOk, Except.toBool] at this

lemma dir_conv_ok_go {α : Type} (lift : ℚ → α) (b1 b2 b3 : α) (v : Str)
    (items : List Str) (res : α × α × α)
    (hassp : assplode_algebraic v = .ok items)
    (h : dir_conv lift b1 b2 b3 v = .ok res) :
    dir_conv.go lift items (b1, b2, b3) = .ok res := by
  simp only [dir_conv, hassp, Bind.bind, Except.bind] at h
  split at h
  · exact absurd h (by simp)
  · exact h

/-- The C6 theorem: the direction parser overwrites only mentioned axes with
the parsed signed magnitudes (concrete algebra examples as listed by the
spec), fails with the invalid-direction error when the expression yields no
terms, fails whenever any term has a trailing character other than x, y or
z, and preserves the base value of every axis that no term mentions. -/
theorem c6_direction_algebra :
    (∀ b1 b2 b3 : ℚ, dir_conv (fun q => q) b1 b2 b3 (chars ("x")) = .ok (1, b2, b3)) ∧
    (∀ b1 b2 b3 : ℚ, dir_conv (fun q => q) b1 b2 b3 (chars ("-x")) = .ok (-1, b2, b3)) ∧
    (∀ b1 b2 b3 : ℚ, dir_conv (fun q => q) b1 b2 b3 (chars ("0.5x")) = .ok (1/2, b2, b3)) ∧
    (dir_conv (fun q => q) 0 0 0 (chars ("x+y")) = .ok (1, 1, 0)) ∧
    (∀ b1 b2 b3 : ℚ, dir_conv (fun q => q) b1 b2 b3 (chars ("0.25z")) = .ok (b1, b2, 1/4)) ∧
    (∀ (v : Str) (b1 b2 b3 : ℚ), assplode_algebraic v = .ok [] →
      dir_conv (fun q => q) b1 b2 b3 v =
        .error (.runtimeError (chars ("Invalid direction: ") ++ v ++ chars (".")))) ∧
    (∀ (v : Str) (items : List Str) (b1 b2 b3 : ℚ) (it : Str) (c : Char),
      assplode_algebraic v = .ok items → it ∈ items → it.getLast? = some c →
      c ≠ 'x' → c ≠ 'y' → c ≠ 'z' →
      (dir_conv (fun q => q) b1 b2 b3 v).isOk = false) ∧
    (∀ (v : Str) (items : List Str) (b1 b2 b3 r1 r2 r3 : ℚ),
      assplode_algebraic v = .ok items →
      dir_conv (fun q => q) b1 b2 b3 v = .ok (r1, r2, r3) →
      (¬ mentionsAxis items 'x' → r1 = b1) ∧
      (¬ mentionsAxis items 'y' → r2 = b2) ∧
      (¬ mentionsAxis items 'z' → r3 = b3)) := by
  refine ⟨fun b1 b2 b3 => rfl, fun b1 b2 b3 => rfl,
    fun b1 b2 b3 => rfl, by decide, fun b1 b2 b3 => rfl, ?_, ?_, ?_⟩
  · intro v b1 b2 b3 hassp
    simp [dir_conv, hassp, Bind.bind, Except.bind]
  · intro v items b1 b2 b3 it c hassp hmem hlast hx hy hz
    rcases hres : dir_conv (fun q => q) b1 b2 b3 v with e | res
    · rfl
    have hgo := dir_conv_ok_go (fun q => q) b1 b2 b3 v items res hassp hres
    have := dir_conv_go_bad_axis_fails (fun q => q) items (b1, b2, b3) it c hmem hlast hx hy hz
    rw [hgo] at this
    simp [Except.isOk, Except.toBool] at this
  · intro v items b1 b2 b3 r1 r2 r3 hassp hok
    have hgo := dir_conv_ok_go (fun q => q) b1 b2 b3 v items (r1, r2, r3) hassp hok
    refine ⟨fun hm => ?_, fun hm => ?_, fun hm => ?_⟩
    · have := dir_conv_go_x_preserved (fun q => q) items (b1, b2, b3) (r1, r2, r3) hgo
        (fun it hit hc => hm ⟨it, hit, hc⟩)
      exact this
    · have := dir_conv_go_y_preserved (fun q => q) items (b1, b2, b3) (r1, r2, r3) hgo
        (fun it hit hc => hm ⟨it, hit, hc⟩)
      exact this
    · have := dir_conv_go_z_preserved (fun q => q) items (b1, b2, b3) (r1, r2, r3) hgo
        (fun it hit hc => hm ⟨it, hit, hc⟩)
      exact this

/-- Witness for C6 at concrete inputs: base (5, 6, 7), the empty expression
fails, the expression 0.5q fails on the trailing q, and the expression 2y
overwrites only the y axis. -/
theorem c6_direction_algebra_witness :
    (assplode_algebraic [] = .ok [] ∧
      dir_conv (fun q => q) (5 : ℚ) 6 7 [] =
        .error (.runtimeError (chars ("Invalid direction: ") ++ [] ++ chars (".")))) ∧
    (assplode_algebraic (chars ("0.5q")) = .ok [chars ("+0.5q")] ∧
      (dir_conv (fun q => q) (5 : ℚ) 6 7 (chars ("0.5q"))).isOk = false) ∧
    (assplode_algebraic (chars ("2y")) = .ok [chars ("+2y")] ∧
      dir_conv (fun q => q) (5 : ℚ) 6 7 (chars ("2y")) = .ok (5, 2, 7) ∧
      ¬ mentionsAxis [chars ("+2y")] 'x' ∧ ¬ mentionsAxis [chars ("+2y")] 'z') := by
  refine ⟨⟨by decide, c6_direction_algebra.2.2.2.2.2.1 [] 5 6 7 (by decide)⟩,
    ⟨by decide, c6_direction_algebra.2.2.2.2.2.2.1 (chars ("0.5q")) [chars ("+0.5q")]
      5 6 7 (chars ("+0.5q")) 'q' (by decide) (by simp) (by decide)
      (by decide) (by decide) (by decide)⟩,
    ⟨by decide, by decide, ?_, ?_⟩⟩
  · simp [mentionsAxis]
    decide
  · simp [mentionsAxis]
    decide

/-- Amended C8 theorem: for every model, compute_visualization_pix_maps
returns the integer maps obtained by truncating every pixel-map coordinate
toward zero (not flooring) and shifting by half the minimal canvas size minus
one, with `(y_min, x_min)` given by twice the truncation toward zero of the
largest absolute coordinate plus two, and with the z, r and phi fields of the
result absent (None). -/
theorem c8_visualization_maps_truncate_toward_zero
    (sqrtQ : ℚ → ℚ) (atan2Q : ℚ → ℚ → ℚ) (g : Detector) (viz : VizPixelMaps)
    (h : compute_visualization_pix_maps sqrtQ atan2Q g = .ok viz) :
    ∃ (m : PixelMaps) (ymin xmin : ℤ),
      compute_pix_maps sqrtQ atan2Q g = .ok m ∧
      compute_min_array_size m = .ok (ymin, xmin) ∧
      ymin = 2 * pyTrunc (max |gridMax m.rows m.cols m.y| |gridMin m.rows m.cols m.y|) + 2 ∧
      xmin = 2 * pyTrunc (max |gridMax m.rows m.cols m.x| |gridMin m.rows m.cols m.x|) + 2 ∧
      (∀ i j, viz.x i j = pyTrunc (m.x i j) + Int.fdiv xmin 2 - 1) ∧
      (∀ i j, viz.y i j = pyTrunc (m.y i j) + Int.fdiv ymin 2 - 1) ∧
      viz.z = none ∧ viz.r = none ∧ viz.phi = none := by
  simp only [compute_visualization_pix_maps, Bind.bind, Except.bind] at h
  split at h
  · exact absurd h (by simp)
  next m hm =>
    split at h
    · exact absurd h (by simp)
    next shape hs =>
      obtain ⟨ymin, xmin⟩ := shape
      have hform : ymin = 2 * pyTrunc (max |gridMax m.rows m.cols m.y| |gridMin m.rows m.cols m.y|) + 2 ∧
          xmin = 2 * pyTrunc (max |gridMax m.rows m.cols m.x| |gridMin m.rows m.cols m.x|) + 2 := by
        unfold compute_min_array_size at hs
        split at hs
        · exact absurd hs (by simp)
        · cases hs; exact ⟨rfl, rfl⟩
      refine ⟨m, ymin, xmin, hm, hs, hform.1, hform.2, ?_, ?_, ?_, ?_, ?_⟩ <;>
        cases h <;> simp

/-- A one-panel hand-built model whose single pixel has the negative
non-integer x coordinate -5/2 (corner_x = -5/2). -/
def panel_c8 : Panel :=
  { min_fs := some 0, max_fs := some 0, min_ss := some 0, max_ss := some 0,
    cnx := some (-(5 : ℚ)/2), cny := some 0, clen := some 0 }

/-- The detector wrapping `panel_c8`. -/
def detector_c8 : Detector := { panels := [(chars ("p0"), panel_c8)] }

/-- Counterexample to C8: at x = -5/2 the source truncates toward zero
(int(-5/2) = -2) while the claim floors (so it predicts -3); with
x_min = 6 the produced map value is 0, while the formula of the claim,
with the floor function, gives -1. -/
theorem c8_counterexample :
    (compute_visualization_pix_maps (fun q => q) (fun a b => a - b) detector_c8).map
        (fun v => v.x 0 0) = .ok 0 ∧
    (compute_pix_maps (fun q => q) (fun a b => a - b) detector_c8).map
        (fun m => m.x 0 0) = .ok (-(5)/2) ∧
    ((compute_pix_maps (fun q => q) (fun a b => a - b) detector_c8).bind
        compute_min_array_size) = .ok (2, 6) ∧
    Rat.floor (-(5 : ℚ)/2) + Int.fdiv 6 2 - 1 = -1 ∧
    (0 : ℤ) ≠ -1 := by
  refine ⟨by decide, by decide, by decide, by decide, by decide⟩

/-- The visualization maps computed for `detector_c8`. -/
def viz_c8 : VizPixelMaps :=
  match compute_visualization_pix_maps (fun q => q) (fun a b => a - b) detector_c8 with
  | .ok v => v
  | .error _ => ⟨0, 0, fun _ _ => 0, fun _ _ => 0, none, none, none⟩

/-- Witness for the amended C8 theorem at the concrete model `detector_c8`. -/
theorem c8_visualization_maps_witness :
    compute_visualization_pix_maps (fun q => q) (fun a b => a - b) detector_c8 = .ok viz_c8 ∧
    ∃ (m : PixelMaps) (ymin xmin : ℤ),
      compute_pix_maps (fun q => q) (fun a b => a - b) detector_c8 = .ok m ∧
      compute_min_array_size m = .ok (ymin, xmin) ∧
      ymin = 2 * pyTrunc (max |gridMax m.rows m.cols m.y| |gridMin m.rows m.cols m.y|) + 2 ∧
      xmin = 2 * pyTrunc (max |gridMax m.rows m.cols m.x| |gridMin m.rows m.cols m.x|) + 2 ∧
      (∀ i j, viz_c8.x i j = pyTrunc (m.x i j) + Int.fdiv xmin 2 - 1) ∧
      (∀ i j, viz_c8.y i j = pyTrunc (m.y i j) + Int.fdiv ymin 2 - 1) ∧
      viz_c8.z = none ∧ viz_c8.r = none ∧ viz_c8.phi = none :=
  ⟨rfl, c8_visualization_maps_truncate_toward_zero (fun q => q) (fun a b => a - b)
    detector_c8 viz_c8 rfl⟩

lemma scatterWrites_eq_last_write (writes : List ((ℤ × ℤ) × ℚ)) :
    ∀ (c0 : ℤ → ℤ → ℚ) (i j : ℤ),
      scatterWrites c0 writes i j =
        (((writes.reverse.find? (fun wr => decide (i = wr.1.1 ∧ j = wr.1.2))).map
          Prod.snd).getD (c0 i j)) := by
  induction writes using List.reverseRecOn with
  | nil => intro c0 i j; simp [scatterWrites]
  | append_singleton l e ih =>
    intro c0 i j
    simp only [scatterWrites, List.foldl_append, List.foldl_cons, List.foldl_nil]
    by_cases hmatch : i = e.1.1 ∧ j = e.1.2
    · simp [hmatch]
    · rw [show ((l ++ [e]).reverse) = e :: l.reverse by simp]
      rw [List.find?_cons_of_neg _ (by simpa using hmatch)]
      simp only [hmatch, if_false]
      exact ih c0 i j

/-- The C9 theorem: apply_geometry_to_data is deterministic (any second run
on the same data and geometry returns the same canvas), and the produced
canvas holds at every coordinate the data value of the last flat row-major
index whose visualization-map target is that coordinate, with every cell no
index targets left at zero. -/
theorem c9_apply_geometry_scatter (sqrtQ : ℚ → ℚ) (atan2Q : ℚ → ℚ → ℚ)
    (data : ℤ → ℤ → ℚ) (g : Detector) (c : Canvas)
    (h : apply_geometry_to_data sqrtQ atan2Q data g = .ok c) :
    (∀ c2, apply_geometry_to_data sqrtQ atan2Q data g = .ok c2 → c2 = c) ∧
    ∃ viz, compute_visualization_pix_maps sqrtQ atan2Q g = .ok viz ∧
      ∀ i j, c.val i j =
        (((flatWrites viz data).reverse.find?
          (fun wr => decide (i = wr.1.1 ∧ j = wr.1.2))).map Prod.snd).getD 0 := by
  refine ⟨fun c2 h2 => by rw [h] at h2; cases h2; rfl, ?_⟩
  simp only [apply_geometry_to_data, Bind.bind, Except.bind] at h
  split at h
  · exact absurd h (by simp)
  next m hm =>
    split at h
    · exact absurd h (by simp)
    next shape hs =>
      split at h
      · exact absurd h (by simp)
      next viz hviz =>
        refine ⟨viz, hviz, fun i j => ?_⟩
        cases h
        exact scatterWrites_eq_last_write (flatWrites viz data) (fun _ _ => 0) i j

/-- A 2 by 2 one-panel hand-built model with identity directions. -/
def panel_c9 : Panel :=
  { min_fs := some 0, max_fs := some 1, min_ss := some 0, max_ss := some 1,
    cnx := some 0, cny := some 0, clen := some 0 }

/-- The detector wrapping `panel_c9`. -/
def detector_c9 : Detector := { panels := [(chars ("p0"), panel_c9)] }

/-- Distinct data values 1, 2, 3, 4 on the 2 by 2 panel. -/
def data_c9 : ℤ → ℤ → ℚ := fun i j => 2 * i + j + 1

/-- The canvas produced for `detector_c9` and `data_c9`. -/
def canvas_c9 : Canvas :=
  match apply_geometry_to_data (fun q => q) (fun a b => a - b) data_c9 detector_c9 with
  | .ok c => c
  | .error _ => ⟨0, 0, fun _ _ => 0⟩

/-- Witness for C9 at the concrete 2 by 2 model: the theorem applies, and the
four distinct data values appear at their recentered coordinates with the
rest of the canvas zero. -/
theorem c9_apply_geometry_scatter_witness :
    apply_geometry_to_data (fun q => q) (fun a b => a - b) data_c9 detector_c9 =
      .ok canvas_c9 ∧
    ((∀ c2, apply_geometry_to_data (fun q => q) (fun a b => a - b) data_c9 detector_c9 =
        .ok c2 → c2 = canvas_c9) ∧
      ∃ viz, compute_visualization_pix_maps (fun q => q) (fun a b => a - b) detector_c9 =
          .ok viz ∧
        ∀ i j, canvas_c9.val i j =
          (((flatWrites viz data_c9).reverse.find?
            (fun wr => decide (i = wr.1.1 ∧ j = wr.1.2))).map Prod.snd).getD 0) ∧
    (canvas_c9.rows, canvas_c9.cols) = (4, 4) ∧
    canvas_c9.val 1 1 = 1 ∧ canvas_c9.val 1 2 = 2 ∧
    canvas_c9.val 2 1 = 3 ∧ canvas_c9.val 2 2 = 4 ∧
    canvas_c9.val 0 0 = 0 ∧ canvas_c9.val 3 3 = 0 :=
  ⟨rfl, c9_apply_geometry_scatter (fun q => q) (fun a b => a - b) data_c9 detector_c9
      canvas_c9 rfl,
    by decide, by decide, by decide, by decide, by decide, by decide, by decide⟩

lemma placePanel_ok_elim (acc acc2 : (ℤ → ℤ → ℚ) × (ℤ → ℤ → ℚ) × (ℤ → ℤ → ℚ))
    (np : Str × Panel) (h : placePanel acc np = .ok acc2) :
    ∃ clen mss mfs cnx cny,
      np.2.clen = some clen ∧ np.2.min_ss = some mss ∧ np.2.min_fs = some mfs ∧
      np.2.cnx = some cnx ∧ np.2.cny = some cny ∧
      (∀ i j, acc2.1 i j = if coversCell np.2 i j
        then (i - mss) * np.2.ssx + (j - mfs) * np.2.fsx + cnx else acc.1 i j) ∧
      (∀ i j, acc2.2.1 i j = if coversCell np.2 i j
        then (i - mss) * np.2.ssy + (j - mfs) * np.2.fsy + cny else acc.2.1 i j) ∧
      (∀ i j, acc2.2.2 i j = if coversCell np.2 i j
        then clen else acc.2.2 i j) := by
  simp only [placePanel, Bind.bind, Except.bind] at h
  split at h
  · exact absurd h (by simp)
  next clen hclen =>
    split at h
    · exact absurd h (by simp)
    next mss hmss =>
      split at h
      · exact absurd h (by simp)
      next mfs hmfs =>
        split at h
        · exact absurd h (by simp)
        next cnx hcnx =>
          split at h
          · exact absurd h (by simp)
          next cny hcny =>
            cases h
            exact ⟨clen, mss, mfs, cnx, cny, valueOrTypeError_ok hclen,
              dictLookup_ok hmss, dictLookup_ok hmfs, valueOrTypeError_ok hcnx,
              valueOrTypeError_ok hcny,
              fun i j => rfl, fun i j => rfl, fun i j => rfl⟩

lemma placePanel_fold_not_covered (i j : ℤ) :
    ∀ (l : List (Str × Panel)) (acc acc2 : (ℤ → ℤ → ℚ) × (ℤ → ℤ → ℚ) × (ℤ → ℤ → ℚ)),
      List.foldlM placePanel acc l = .ok acc2 →
      (∀ np ∈ l, coversCell np.2 i j = false) →
      acc2.1 i j = acc.1 i j ∧ acc2.2.1 i j = acc.2.1 i j ∧ acc2.2.2 i j = acc.2.2 i j
  | [], acc, acc2, h, _ => by
    simp only [List.foldlM] at h
    cases h
    exact ⟨rfl, rfl, rfl⟩
  | np :: rest, acc, acc2, h, hnc => by
    simp only [List.foldlM, Bind.bind, Except.bind] at h
    split at h
    · exact absurd h (by simp)
    next acc1 hstep =>
      obtain ⟨clen, mss, mfs, cnx, cny, -, -, -, -, -, hx, hy, hz⟩ :=
        placePanel_ok_elim acc acc1 np hstep
      have hcov : coversCell np.2 i j = false := hnc np (List.mem_cons_self np rest)
      have ih := placePanel_fold_not_covered i j rest acc1 acc2 h
        (fun np2 hm => hnc np2 (List.mem_cons_of_mem np hm))
      refine ⟨?_, ?_, ?_⟩
      · rw [ih.1, hx i j, hcov]; simp
      · rw [ih.2.1, hy i j, hcov]; simp
      · rw [ih.2.2, hz i j, hcov]; simp

lemma placePanel_fold_last_covered (i j : ℤ) :
    ∀ (l : List (Str × Panel)) (acc acc2 : (ℤ → ℤ → ℚ) × (ℤ → ℤ → ℚ) × (ℤ → ℤ → ℚ))
      (k : Nat) (n : Str) (p : Panel),
      List.foldlM placePanel acc l = .ok acc2 →
      l.get? k = some (n, p) →
      coversCell p i j = true →
      (∀ np2 ∈ l.drop (k + 1), coversCell np2.2 i j = false) →
      ∃ clen mss mfs cnx cny,
        p.clen = some clen ∧ p.min_ss = some mss ∧ p.min_fs = some mfs ∧
        p.cnx = some cnx ∧ p.cny = some cny ∧
        acc2.1 i j = (i - mss) * p.ssx + (j - mfs) * p.fsx + cnx ∧
        acc2.2.1 i j = (i - mss) * p.ssy + (j - mfs) * p.fsy + cny ∧
        acc2.2.2 i j = clen
  | [], _, _, k, _, _, _, hk, _, _ => by simp at hk
  | np :: rest, acc, acc2, k, n, p, h, hk, hcov, hlater => by
    simp only [List.foldlM, Bind.bind, Except.bind] at h
    split at h
    · exact absurd h (by simp)
    next acc1 hstep =>
      cases k with
      | zero =>
        simp only [List.get?] at hk
        cases hk
        obtain ⟨clen, mss, mfs, cnx, cny, hclen, hmss, hmfs, hcnx, hcny, hx, hy, hz⟩ :=
          placePanel_ok_elim acc acc1 (n, p) hstep
        have hrest := placePanel_fold_not_covered i j rest acc1 acc2 h
          (by simpa using hlater)
        refine ⟨clen, mss, mfs, cnx, cny, hclen, hmss, hmfs, hcnx, hcny, ?_, ?_, ?_⟩
        · rw [hrest.1, hx i j, hcov]; simp
        · rw [hrest.2.1, hy i j, hcov]; simp
        · rw [hrest.2.2, hz i j, hcov]; simp
      | succ k0 =>
        exact placePanel_fold_last_covered i j rest acc1 acc2 k0 n p h hk hcov
          (by simpa using hlater)

/-- The C5 theorem: for every model and every panel, compute_pix_maps writes
at the global cell (min_ss + ss, min_fs + fs), for all local indices in the
panel window (and whenever no later panel window overwrites that cell), the
affine values ss·ssx + fs·fsx + cnx and ss·ssy + fs·fsy + cny, and the r and
phi grids are the elementwise sqrt of the sum of squares and arctan2 of the
final x and y grids. -/
theorem c5_pixel_map_affine (sqrtQ : ℚ → ℚ) (atan2Q : ℚ → ℚ → ℚ) (g : Detector)
    (m : PixelMaps) (k : Nat) (n : Str) (p : Panel)
    (mss mssMax mfs mfsMax : ℤ) (cnx cny : ℚ) (ss fs : ℤ)
    (hm : compute_pix_maps sqrtQ atan2Q g = .ok m)
    (hk : g.panels.get? k = some (n, p))
    (h1 : p.min_ss = some mss) (h2 : p.max_ss = some mssMax)
    (h3 : p.min_fs = some mfs) (h4 : p.max_fs = some mfsMax)
    (h5 : p.cnx = some cnx) (h6 : p.cny = some cny)
    (hss0 : 0 ≤ ss) (hss1 : ss ≤ mssMax - mss)
    (hfs0 : 0 ≤ fs) (hfs1 : fs ≤ mfsMax - mfs)
    (hlater : ∀ np2 ∈ g.panels.drop (k + 1),
      coversCell np2.2 (mss + ss) (mfs + fs) = false) :
    m.x (mss + ss) (mfs + fs) = ss * p.ssx + fs * p.fsx + cnx ∧
    m.y (mss + ss) (mfs + fs) = ss * p.ssy + fs * p.fsy + cny ∧
    (∀ i j, m.r i j = sqrtQ (m.x i j * m.x i j + m.y i j * m.y i j)) ∧
    (∀ i j, m.phi i j = atan2Q (m.y i j) (m.x i j)) := by
  simp only [compute_pix_maps, Bind.bind, Except.bind] at hm
  split at hm
  · exact absurd hm (by simp)
  next fsList hfsList =>
    split at hm
    · exact absurd hm (by simp)
    next maxFs hmaxFs =>
      split at hm
      · exact absurd hm (by simp)
      next ssList hssList =>
        split at hm
        · exact absurd hm (by simp)
        next maxSs hmaxSs =>
          split at hm
          · exact absurd hm (by simp)
          next u hguard =>
            split at hm
            · exact absurd hm (by simp)
            next acc hfold =>
              have hcov : coversCell p (mss + ss) (mfs + fs) = true := by
                simp only [coversCell, h1, h2, h3, h4]
                rw [decide_eq_true_iff]
                omega
              obtain ⟨clen2, mss2, mfs2, cnx2, cny2, hcl2, hmss2, hmfs2, hcnx2, hcny2,
                  hx, hy, hz⟩ :=
                placePanel_fold_last_covered (mss + ss) (mfs + fs) g.panels
                  (fun _ _ => 0, fun _ _ => 0, fun _ _ => 0) acc k n p hfold hk hcov hlater
              rw [h1] at hmss2; rw [h3] at hmfs2; rw [h5] at hcnx2; rw [h6] at hcny2
              cases hmss2; cases hmfs2; cases hcnx2; cases hcny2
              obtain ⟨xm, ym, zm⟩ := acc
              cases hm
              refine ⟨?_, ?_, fun i j => rfl, fun i j => rfl⟩
              · show (xm, ym, zm).1 (mss + ss) (mfs + fs) = _
                rw [hx]; push_cast; ring
              · show (xm, ym, zm).2.1 (mss + ss) (mfs + fs) = _
                rw [hy]; push_cast; ring

/-- The minimal one-panel geometry of the spec, plus an explicit corner_y
(without which the distance scan of the loader meets a None value). -/
def lines_c5 : List Str :=
  [chars ("p0/min_fs = 0"), chars ("p0/max_fs = 9"), chars ("p0/min_ss = 0"),
   chars ("p0/max_ss = 4"), chars ("p0/corner_x = 0"), chars ("p0/corner_y = 0"),
   chars ("p0/fs = x"), chars ("p0/ss = y"), chars ("p0/clen = 0.1"),
   chars ("p0/res = 1000"), chars ("p0/adu_per_eV = 1")]

/-- The model loaded from `lines_c5`. -/
def detector_c5 : Detector :=
  match load_crystfel_geometry lines_c5 with
  | .ok d => d
  | .error _ => {}

/-- The panel p0 of `detector_c5`. -/
def panel_c5 : Panel :=
  match alookup (chars ("p0")) detector_c5.panels with
  | some p => p
  | none => {}

/-- The pixel maps of `detector_c5`. -/
def maps_c5 : PixelMaps :=
  match compute_pix_maps (fun q => q) (fun a b => a - b) detector_c5 with
  | .ok m => m
  | .error _ => ⟨0, 0, fun _ _ => 0, fun _ _ => 0, fun _ _ => 0, fun _ _ => 0, fun _ _ => 0⟩

/-- Witness for C5 at the minimal one-panel model, local index (ss, fs) =
(2, 3), where the affine formula gives x = 3 and y = 2. -/
theorem c5_pixel_map_affine_witness :
    compute_pix_maps (fun q => q) (fun a b => a - b) detector_c5 = .ok maps_c5 ∧
    detector_c5.panels.get? 0 = some (chars ("p0"), panel_c5) ∧
    panel_c5.min_ss = some 0 ∧ panel_c5.max_ss = some 4 ∧
    panel_c5.min_fs = some 0 ∧ panel_c5.max_fs = some 9 ∧
    panel_c5.cnx = some 0 ∧ panel_c5.cny = some 0 ∧
    (maps_c5.x ((0 : ℤ) + 2) ((0 : ℤ) + 3) = 2 * panel_c5.ssx + 3 * panel_c5.fsx + 0 ∧
     maps_c5.y ((0 : ℤ) + 2) ((0 : ℤ) + 3) = 2 * panel_c5.ssy + 3 * panel_c5.fsy + 0 ∧
     (∀ i j, maps_c5.r i j = (fun q => q) (maps_c5.x i j * maps_c5.x i j + maps_c5.y i j * maps_c5.y i j)) ∧
     (∀ i j, maps_c5.phi i j = (fun a b => a - b) (maps_c5.y i j) (maps_c5.x i j))) ∧
    maps_c5.x 2 3 = 3 ∧ maps_c5.y 2 3 = 2 :=
  ⟨rfl, by decide, by decide, by decide, by decide, by decide, by decide, by decide,
    c5_pixel_map_affine (fun q => q) (fun a b => a - b) detector_c5 maps_c5 0
      (chars ("p0")) panel_c5 0 4 0 9 0 0 2 3 rfl (by decide) (by decide) (by decide)
      (by decide) (by decide) (by decide) (by decide) (by decide) (by decide)
      (by decide) (by decide)
      (by intro np2 hmem
          rw [show detector_c5.panels.drop (0 + 1) = [] from by decide] at hmem
          exact absurd hmem (List.not_mem_nil np2)),
    by decide, by decide⟩

lemma set_dim_structure_entry_ok (key value : Str) (p p2 : Panel)
    (h : set_dim_structure_entry key value p = .ok p2) :
    ∃ d, p2 = { p with dim_structure := some d } := by
  simp only [set_dim_structure_entry] at h
  repeat (any_goals (split at h))
  all_goals first
    | exact Except.noConfusion h
    | (injection h with h2; exact ⟨_, h2.symm⟩)

lemma parse_field_for_panel_tail_coffset_clen (field value : Str) (p p2 : Panel)
    (h : parse_field_for_panel_tail field value p = .ok p2) :
    (field ≠ chars ("coffset") → p2.coffset = p.coffset) ∧
    (p2.clen = p.clen ∧ p2.clen_from = p.clen_from) := by
  unfold parse_field_for_panel_tail at h
  by_cases k1 : field = chars ("data")
  · rw [if_pos k1] at h
    repeat (any_goals (split at h))
    all_goals first
      | exact Except.noConfusion h
      | (injection h with h2
         subst h2
         exact ⟨fun hne => rfl, rfl, rfl⟩)
  rw [if_neg k1] at h
  by_cases k2 : field = chars ("mask")
  · rw [if_pos k2] at h
    repeat (any_goals (split at h))
    all_goals first
      | exact Except.noConfusion h
      | (injection h with h2
         subst h2
         exact ⟨fun hne => rfl, rfl, rfl⟩)
  rw [if_neg k2] at h
  by_cases k3 : field = chars ("mask_file")
  · rw [if_pos k3] at h
    repeat (any_goals (split at h))
    all_goals first
      | exact Except.noConfusion h
      | (injection h with h2
         subst h2
         exact ⟨fun hne => rfl, rfl, rfl⟩)
  rw [if_neg k3] at h
  by_cases k4 : field = chars ("saturation_map")
  · rw [if_pos k4] at h
    repeat (any_goals (split at h))
    all_goals first
      | exact Except.noConfusion h
      | (injection h with h2
         subst h2
         exact ⟨fun hne => rfl, rfl, rfl⟩)
  rw [if_neg k4] at h
  by_cases k5 : field = chars ("saturation_map_file")
  · rw [if_pos k5] at h
    repeat (any_goals (split at h))
    all_goals first
      | exact Except.noConfusion h
      | (injection h with h2
         subst h2
         exact ⟨fun hne => rfl, rfl, rfl⟩)
  rw [if_neg k5] at h
  by_cases k6 : field = chars ("coffset")
  · rw [if_pos k6] at h
    split at h
    · injection h with h2
      subst h2
      exact ⟨fun hne => absurd k6 hne, rfl, rfl⟩
    · exact Except.noConfusion h
  rw [if_neg k6] at h
  by_cases k7 : field = chars ("res")
  · rw [if_pos k7] at h
    repeat (any_goals (split at h))
    all_goals first
      | exact Except.noConfusion h
      | (injection h with h2
         subst h2
         exact ⟨fun hne => rfl, rfl, rfl⟩)
  rw [if_neg k7] at h
  by_cases k8 : field = chars ("max_adu")
  · rw [if_pos k8] at h
    repeat (any_goals (split at h))
    all_goals first
      | exact Except.noConfusion h
      | (injection h with h2
         subst h2
         exact ⟨fun hne => rfl, rfl, rfl⟩)
  rw [if_neg k8] at h
  by_cases k9 : field = chars ("badrow_direction")
  · rw [if_pos k9] at h
    repeat (any_goals (split at h))
    all_goals first
      | exact Except.noConfusion h
      | (injection h with h2
         subst h2
         exact ⟨fun hne => rfl, rfl, rfl⟩)
  rw [if_neg k9] at h
  by_cases k10 : field = chars ("no_index")
  · rw [if_pos k10] at h
    repeat (any_goals (split at h))
    all_goals first
      | exact Except.noConfusion h
      | (injection h with h2
         subst h2
         exact ⟨fun hne => rfl, rfl, rfl⟩)
  rw [if_neg k10] at h
  by_cases k11 : field = chars ("fs")
  · rw [if_pos k11] at h
    repeat (any_goals (split at h))
    all_goals first
      | exact Except.noConfusion h
      | (injection h with h2
         subst h2
         exact ⟨fun hne => rfl, rfl, rfl⟩)
  rw [if_neg k11] at h
  by_cases k12 : field = chars ("ss")
  · rw [if_pos k12] at h
    repeat (any_goals (split at h))
    all_goals first
      | exact Except.noConfusion h
      | (injection h with h2
         subst h2
         exact ⟨fun hne => rfl, rfl, rfl⟩)
  rw [if_neg k12] at h
  by_cases k13 : startsWith (chars ("dim")) field = true
  · rw [if_pos k13] at h
    obtain ⟨d2, rfl⟩ := set_dim_structure_entry_ok _ _ _ _ h
    exact ⟨fun hne => rfl, rfl, rfl⟩
  rw [if_neg k13] at h
  injection h with h2
  subst h2
  exact ⟨fun hne => rfl, rfl, rfl⟩

lemma parse_field_for_panel_coffset_clen (field value : Str) (p p2 : Panel)
    (h : parse_field_for_panel field value p = .ok p2) :
    (field ≠ chars ("coffset") → p2.coffset = p.coffset) ∧
    ((p2.clen = p.clen ∧ p2.clen_from = p.clen_from) ∨
     (∃ q, pyFloat value = some q ∧ p2.clen = some q ∧ p2.clen_from = some none) ∨
     (p2.clen = some (-1) ∧ p2.clen_from = some (some value))) := by
  unfold parse_field_for_panel at h
  by_cases j1 : field = chars ("min_fs")
  · rw [if_pos j1] at h
    repeat (any_goals (split at h))
    all_goals first
      | exact Except.noConfusion h
      | (injection h with h2
         subst h2
         exact ⟨fun hne => rfl, Or.inl ⟨rfl, rfl⟩⟩)
  rw [if_neg j1] at h
  by_cases j2 : field = chars ("max_fs")
  · rw [if_pos j2] at h
    repeat (any_goals (split at h))
    all_goals first
      | exact Except.noConfusion h
      | (injection h with h2
         subst h2
         exact ⟨fun hne => rfl, Or.inl ⟨rfl, rfl⟩⟩)
  rw [if_neg j2] at h
  by_cases j3 : field = chars ("min_ss")
  · rw [if_pos j3] at h
    repeat (any_goals (split at h))
    all_goals first
      | exact Except.noConfusion h
      | (injection h with h2
         subst h2
         exact ⟨fun hne => rfl, Or.inl ⟨rfl, rfl⟩⟩)
  rw [if_neg j3] at h
  by_cases j4 : field = chars ("max_ss")
  · rw [if_pos j4] at h
    repeat (any_goals (split at h))
    all_goals first
      | exact Except.noConfusion h
      | (injection h with h2
         subst h2
         exact ⟨fun hne => rfl, Or.inl ⟨rfl, rfl⟩⟩)
  rw [if_neg j4] at h
  by_cases j5 : field = chars ("corner_x")
  · rw [if_pos j5] at h
    repeat (any_goals (split at h))
    all_goals first
      | exact Except.noConfusion h
      | (injection h with h2
         subst h2
         exact ⟨fun hne => rfl, Or.inl ⟨rfl, rfl⟩⟩)
  rw [if_neg j5] at h
  by_cases j6 : field = chars ("corner_y")
  · rw [if_pos j6] at h
    repeat (any_goals (split at h))
    all_goals first
      | exact Except.noConfusion h
      | (injection h with h2
         subst h2
         exact ⟨fun hne => rfl, Or.inl ⟨rfl, rfl⟩⟩)
  rw [if_neg j6] at h
  by_cases j7 : field = chars ("rail_direction")
  · rw [if_pos j7] at h
    repeat (any_goals (split at h))
    all_goals first
      | exact Except.noConfusion h
      | (injection h with h2
         subst h2
         exact ⟨fun hne => rfl, Or.inl ⟨rfl, rfl⟩⟩)
  rw [if_neg j7] at h
  by_cases j8 : field = chars ("clen_for_centering")
  · rw [if_pos j8] at h
    repeat (any_goals (split at h))
    all_goals first
      | exact Except.noConfusion h
      | (injection h with h2
         subst h2
         exact ⟨fun hne => rfl, Or.inl ⟨rfl, rfl⟩⟩)
  rw [if_neg j8] at h
  by_cases j9 : field = chars ("adu_per_eV")
  · rw [if_pos j9] at h
    repeat (any_goals (split at h))
    all_goals first
      | exact Except.noConfusion h
      | (injection h with h2
         subst h2
         exact ⟨fun hne => rfl, Or.inl ⟨rfl, rfl⟩⟩)
  rw [if_neg j9] at h
  by_cases j10 : field = chars ("adu_per_photon")
  · rw [if_pos j10] at h
    repeat (any_goals (split at h))
    all_goals first
      | exact Except.noConfusion h
      | (injection h with h2
         subst h2
         exact ⟨fun hne => rfl, Or.inl ⟨rfl, rfl⟩⟩)
  rw [if_neg j10] at h
  by_cases j11 : field = chars ("rigid_group")
  · rw [if_pos j11] at h
    repeat (any_goals (split at h))
    all_goals first
      | exact Except.noConfusion h
      | (injection h with h2
         subst h2
         exact ⟨fun hne => rfl, Or.inl ⟨rfl, rfl⟩⟩)
  rw [if_neg j11] at h
  by_cases j12 : field = chars ("clen")
  · rw [if_pos j12] at h
    split at h
    next q hq =>
      injection h with h2
      subst h2
      exact ⟨fun hne => rfl, Or.inr (Or.inl ⟨q, hq, rfl, rfl⟩)⟩
    next hq =>
      injection h with h2
      subst h2
      exact ⟨fun hne => rfl, Or.inr (Or.inr ⟨rfl, rfl⟩)⟩
  rw [if_neg j12] at h
  have := parse_field_for_panel_tail_coffset_clen _ _ _ _ h
  exact ⟨this.1, Or.inl this.2⟩

/-- The camera-length invariant of panel records: a stored dynamic source
path is always accompanied by the -1.0 sentinel in clen (the only code path
writing clen_from with a string also writes that sentinel). -/
def ClenOK (p : Panel) : Prop :=
  ∀ s, p.clen_from = some (some s) → p.clen = some (-1)

lemma clenOK_default : ClenOK ({} : Panel) := by
  intro s hs
  exact absurd hs (by simp)

lemma parse_field_for_panel_clenOK (field value : Str) (p p2 : Panel)
    (h : parse_field_for_panel field value p = .ok p2) (hp : ClenOK p) : ClenOK p2 := by
  rcases (parse_field_for_panel_coffset_clen field value p p2 h).2 with
    ⟨hc, hcf⟩ | ⟨q, -, hc, hcf⟩ | ⟨hc, hcf⟩
  · intro s hs
    rw [hcf] at hs
    rw [hc]
    exact hp s hs
  · intro s hs
    rw [hcf] at hs
    exact absurd hs (by simp)
  · intro s hs
    exact hc

lemma mem_aset {β : Type} (k : Str) (v : β) :
    ∀ (l : List (Str × β)) (np : Str × β), np ∈ aset k v l → np = (k, v) ∨ np ∈ l
  | [], np, hm => by
    simp only [aset] at hm
    rcases List.mem_singleton.mp hm with h
    exact Or.inl h
  | (k0, v0) :: rest, np, hm => by
    simp only [aset] at hm
    split at hm
    · rcases List.mem_cons.mp hm with h | h
      · exact Or.inl h
      · exact Or.inr (List.mem_cons_of_mem _ h)
    · rcases List.mem_cons.mp hm with h | h
      · exact Or.inr (h ▸ List.mem_cons_self _ _)
      · rcases mem_aset k v rest np h with h2 | h2
        · exact Or.inl h2
        · exact Or.inr (List.mem_cons_of_mem _ h2)

/-- The load-state invariant: the shared default-panel record and every
panel in the map satisfy the camera-length invariant. -/
def LoadInv (st : LoadState) : Prop :=
  ClenOK st.default_panel ∧ ∀ np ∈ st.detector.panels, ClenOK np.2

lemma parse_toplevel_panels_clenOK (key value : Str) (det : Detector) (beam : Beam)
    (dp : Panel) (tr : Detector × Beam × Panel)
    (h : parse_toplevel key value det beam dp = .ok tr) :
    tr.1.panels = det.panels ∧ (ClenOK dp → ClenOK tr.2.2) := by
  unfold parse_toplevel at h
  by_cases t1 : key = chars ("mask_bad")
  · rw [if_pos t1] at h
    repeat (any_goals (split at h))
    all_goals first
      | exact Except.noConfusion h
      | (injection h with h2; subst h2; exact ⟨rfl, fun hok => hok⟩)
  rw [if_neg t1] at h
  by_cases t2 : key = chars ("mask_good")
  · rw [if_pos t2] at h
    repeat (any_goals (split at h))
    all_goals first
      | exact Except.noConfusion h
      | (injection h with h2; subst h2; exact ⟨rfl, fun hok => hok⟩)
  rw [if_neg t2] at h
  by_cases t3 : key = chars ("coffset")
  · rw [if_pos t3] at h
    split at h
    · injection h with h2
      subst h2
      exact ⟨rfl, fun hok s hs => hok s hs⟩
    · exact Except.noConfusion h
  rw [if_neg t3] at h
  by_cases t4 : key = chars ("photon_energy")
  · rw [if_pos t4] at h
    repeat (any_goals (split at h))
    all_goals first
      | exact Except.noConfusion h
      | (injection h with h2; subst h2; exact ⟨rfl, fun hok => hok⟩)
  rw [if_neg t4] at h
  by_cases t5 : key = chars ("photon_energy_scale")
  · rw [if_pos t5] at h
    repeat (any_goals (split at h))
    all_goals first
      | exact Except.noConfusion h
      | (injection h with h2; subst h2; exact ⟨rfl, fun hok => hok⟩)
  rw [if_neg t5] at h
  by_cases t6 : key = chars ("peak_info_location")
  · rw [if_pos t6] at h
    injection h with h2
    subst h2
    exact ⟨rfl, fun hok => hok⟩
  rw [if_neg t6] at h
  by_cases t7 : startsWith (chars ("rigid_group")) key = true ∧
      ¬ startsWith (chars ("rigid_group_collection")) key = true
  · rw [if_pos t7] at h
    injection h with h2
    subst h2
    exact ⟨rfl, fun hok => hok⟩
  rw [if_neg t7] at h
  by_cases t8 : startsWith (chars ("rigid_group_collection")) key = true
  · rw [if_pos t8] at h
    injection h with h2
    subst h2
    exact ⟨rfl, fun hok => hok⟩
  rw [if_neg t8] at h
  split at h
  next p2 hp2 =>
    injection h with h2
    subst h2
    exact ⟨rfl, fun hok => parse_field_for_panel_clenOK _ _ _ _ hp2 hok⟩
  next e he => exact Except.noConfusion h

lemma alookup_mem {β : Type} (k : Str) :
    ∀ (l : List (Str × β)) (v : β), alookup k l = some v → (k, v) ∈ l := by
  intro l
  induction l with
  | nil => intro v h; exact absurd h (by simp [alookup])
  | cons hd rest ih =>
    intro v h
    obtain ⟨k0, v0⟩ := hd
    rw [alookup] at h
    split at h
    next heq =>
      injection h with h2
      subst h2
      subst heq
      exact List.mem_cons_self _ _
    next hne =>
      exact List.mem_cons_of_mem _ (ih v h)

lemma panelStep_inv (st st2 : LoadState) (name field value : Str)
    (h : panelStep st name field value = .ok st2) (hinv : LoadInv st) : LoadInv st2 := by
  unfold panelStep at h
  have main : ∀ (curr p2 : Panel), ClenOK curr →
      parse_field_for_panel field value curr = .ok p2 →
      st2 = { st with detector := { st.detector with panels := aset name p2 st.detector.panels } } →
      LoadInv st2 := by
    intro curr p2 hcurr hp2 hst2
    subst hst2
    refine ⟨hinv.1, fun np hm => ?_⟩
    rcases mem_aset name p2 st.detector.panels np hm with hq | hq
    · subst hq
      exact parse_field_for_panel_clenOK field value curr p2 hp2 hcurr
    · exact hinv.2 np hq
  split at h
  next p hlook =>
    simp only [] at h
    split at h
    next p2 hp2 =>
      injection h with h2
      exact main p p2 (hinv.2 (name, p) (alookup_mem name st.detector.panels p hlook)) hp2 h2.symm
    next e he => exact Except.noConfusion h
  next hlook =>
    simp only [] at h
    split at h
    next p2 hp2 =>
      injection h with h2
      exact main st.default_panel p2 hinv.1 hp2 h2.symm
    next e he => exact Except.noConfusion h

lemma badStep_inv (st st2 : LoadState) (name field value : Str)
    (h : badStep st name field value = .ok st2) (hinv : LoadInv st) : LoadInv st2 := by
  unfold badStep at h
  split at h <;> simp only [] at h <;> split at h
  all_goals first
    | exact Except.noConfusion h
    | (injection h with h2; subst h2; exact ⟨hinv.1, hinv.2⟩)

lemma toplevelStep_inv (st st2 : LoadState) (key value : Str)
    (h : toplevelStep st key value = .ok st2) (hinv : LoadInv st) : LoadInv st2 := by
  unfold toplevelStep at h
  split at h
  next d2 b2 p2 htr =>
    injection h with h3
    subst h3
    obtain ⟨hpanels, hdp⟩ := parse_toplevel_panels_clenOK key value st.detector st.beam
      st.default_panel (d2, b2, p2) htr
    refine ⟨hdp hinv.1, fun np hm => ?_⟩
    rw [show (LoadState.mk b2 d2 p2).detector = d2 from rfl] at hm
    rw [show (d2, b2, p2).1 = d2 from rfl] at hpanels
    rw [hpanels] at hm
    exact hinv.2 np hm
  next e he => exact Except.noConfusion h

lemma dispatchKV_inv (st st2 : LoadState) (key value : Str)
    (h : dispatchKV st key value = .ok st2) (hinv : LoadInv st) : LoadInv st2 := by
  unfold dispatchKV at h
  rcases hpath : splitPath key with _ | ⟨name, _ | ⟨field, tail⟩⟩ <;> rw [hpath] at h
  · exact toplevelStep_inv st st2 key value h hinv
  · exact toplevelStep_inv st st2 key value h hinv
  · have h2 : (if startsWith (chars ("bad")) name = true then badStep st name field value
        else panelStep st name field value) = .ok st2 := h
    by_cases hbad : startsWith (chars ("bad")) name = true
    · rw [if_pos hbad] at h2
      exact badStep_inv st st2 name field value h2 hinv
    · rw [if_neg hbad] at h2
      exact panelStep_inv st st2 name field value h2 hinv

lemma processLine_inv (st st2 : LoadState) (line : Str)
    (h : processLine st line = .ok st2) (hinv : LoadInv st) : LoadInv st2 := by
  unfold processLine at h
  split at h
  · cases h; exact hinv
  · simp only [] at h
    split at h
    next item0 item1 rest =>
      split at h
      · cases h; exact hinv
      · split at h
        · cases h; exact hinv
        · exact dispatchKV_inv st st2 _ _ h hinv
    next => cases h; exact hinv

lemma foldLines_inv :
    ∀ (lines : List Str) (st st2 : LoadState),
      List.foldlM processLine st lines = .ok st2 → LoadInv st → LoadInv st2
  | [], st, st2, h, hinv => by
    simp only [List.foldlM] at h
    cases h
    exact hinv
  | line :: rest, st, st2, h, hinv => by
    simp only [List.foldlM, Bind.bind, Except.bind] at h
    split at h
    · exact absurd h (by simp)
    next st1 hst1 =>
      exact foldLines_inv rest st1 st2 h (processLine_inv st st1 line hst1 hinv)

lemma dimsStep_clenOK (done : List (Str × Panel)) (dimLen : Option Nat)
    (np : Str × Panel) (acc2 : List (Str × Panel) × Option Nat)
    (h : dimsStep (done, dimLen) np = .ok acc2)
    (hd : ∀ q ∈ done, ClenOK q.2) (hp : ClenOK np.2) :
    ∀ q ∈ acc2.1, ClenOK q.2 := by
  obtain ⟨name, p0⟩ := np
  simp only [dimsStep, Bind.bind, Except.bind] at h
  by_cases hds : p0.dim_structure = none
  · rw [if_pos hds] at h
    repeat (any_goals (split at h))
    all_goals first
      | exact Except.noConfusion h
      | (injection h with h2; subst h2
         intro q hq
         rcases List.mem_append.mp hq with hq | hq
         · exact hd q hq
         · rcases List.mem_singleton.mp hq with rfl
           intro s hs
           exact hp s hs)
  · rw [if_neg hds] at h
    repeat (any_goals (split at h))
    all_goals first
      | exact Except.noConfusion h
      | (injection h with h2; subst h2
         intro q hq
         rcases List.mem_append.mp hq with hq | hq
         · exact hd q hq
         · rcases List.mem_singleton.mp hq with rfl
           intro s hs
           exact hp s hs)

lemma dimsFold_clenOK :
    ∀ (ps : List (Str × Panel)) (done : List (Str × Panel)) (dimLen : Option Nat)
      (acc2 : List (Str × Panel) × Option Nat),
      List.foldlM dimsStep (done, dimLen) ps = .ok acc2 →
      (∀ q ∈ done, ClenOK q.2) → (∀ q ∈ ps, ClenOK q.2) →
      ∀ q ∈ acc2.1, ClenOK q.2
  | [], done, dimLen, acc2, h, hd, _ => by
    simp only [List.foldlM] at h
    cases h
    exact hd
  | np :: rest, done, dimLen, acc2, h, hd, hps => by
    simp only [List.foldlM, Bind.bind, Except.bind] at h
    split at h
    · exact Except.noConfusion h
    next acc1 hstep =>
      obtain ⟨done1, len1⟩ := acc1
      exact dimsFold_clenOK rest done1 len1 acc2 h
        (dimsStep_clenOK done dimLen np (done1, len1) hstep hd
          (hps np (List.mem_cons_self np rest)))
        (fun q hq => hps q (List.mem_cons_of_mem np hq))

lemma dimsPass_clenOK (d d2 : Detector) (h : dimsPass d = .ok d2)
    (hd : ∀ q ∈ d.panels, ClenOK q.2) : ∀ q ∈ d2.panels, ClenOK q.2 := by
  simp only [dimsPass, Bind.bind, Except.bind] at h
  split at h
  · exact Except.noConfusion h
  next acc hacc =>
    cases h
    exact dimsFold_clenOK d.panels [] none acc hacc (by intro q hq; cases hq) hd

lemma railCenterDefaults_clen (p : Panel) :
    (railCenterDefaults p).clen_from = p.clen_from ∧
      (railCenterDefaults p).clen = p.clen := by
  unfold railCenterDefaults
  simp only []
  by_cases r1 : p.rail_x = none
  · rw [if_pos r1]
    constructor <;> (split <;> rfl)
  · rw [if_neg r1]
    constructor <;> (split <;> rfl)

lemma completenessTail_clenOK (name : Str) (p p2 : Panel) (a b c d : ℤ)
    (h : completenessTail name p a b c d = .ok p2) (hp : ClenOK p) : ClenOK p2 := by
  simp only [completenessTail, Bind.bind, Except.bind] at h
  repeat (any_goals (split at h))
  all_goals first
    | exact Except.noConfusion h
    | (injection h with h2; subst h2
       intro s hs
       have hs2 : (railCenterDefaults p).clen_from = some (some s) := hs
       rw [(railCenterDefaults_clen p).1] at hs2
       have hgoal : (railCenterDefaults p).clen = some (-1) := by
         rw [(railCenterDefaults_clen p).2]
         exact hp s hs2
       exact hgoal)

lemma completenessPanel_clenOK (name : Str) (p p2 : Panel)
    (h : completenessPanel name p = .ok p2) (hp : ClenOK p) : ClenOK p2 := by
  simp only [completenessPanel, Bind.bind, Except.bind] at h
  repeat (any_goals (split at h))
  all_goals first
    | exact Except.noConfusion h
    | exact completenessTail_clenOK name p p2 _ _ _ _ h hp

lemma singularPanel_clenOK (p p2 : Panel)
    (h : singularPanel p = .ok p2) (hp : ClenOK p) : ClenOK p2 := by
  unfold singularPanel at h
  simp only [] at h
  split at h
  · exact Except.noConfusion h
  · injection h with h2
    subst h2
    intro s hs
    exact hp s hs

lemma mapPanelsM_fold_clenOK (F : Str → Panel → Except PyErr Panel)
    (hF : ∀ n p p2, F n p = .ok p2 → ClenOK p → ClenOK p2) :
    ∀ (ps acc res : List (Str × Panel)),
      List.foldlM (fun acc np => do
          let p2 ← F np.1 np.2
          Except.ok (acc ++ [(np.1, p2)])) acc ps = .ok res →
      (∀ q ∈ acc, ClenOK q.2) → (∀ q ∈ ps, ClenOK q.2) →
      ∀ q ∈ res, ClenOK q.2
  | [], acc, res, h, ha, _ => by
    simp only [List.foldlM] at h
    cases h
    exact ha
  | np :: rest, acc, res, h, ha, hps => by
    simp only [List.foldlM, Bind.bind, Except.bind] at h
    split at h
    · exact Except.noConfusion h
    next acc1 hstep =>
      split at hstep
      · exact Except.noConfusion hstep
      next pq hpq =>
        injection hstep with h2
        subst h2
        refine mapPanelsM_fold_clenOK F hF rest (acc ++ [(np.1, pq)]) res h ?_
          (fun q hq => hps q (List.mem_cons_of_mem np hq))
        intro q hq
        rcases List.mem_append.mp hq with hq | hq
        · exact ha q hq
        · rcases List.mem_singleton.mp hq with rfl
          exact hF np.1 np.2 pq hpq (hps np (List.mem_cons_self np rest))

lemma mapPanelsM_clenOK (F : Str → Panel → Except PyErr Panel)
    (hF : ∀ n p p2, F n p = .ok p2 → ClenOK p → ClenOK p2)
    (d d2 : Detector) (h : mapPanelsM F d = .ok d2)
    (hd : ∀ q ∈ d.panels, ClenOK q.2) : ∀ q ∈ d2.panels, ClenOK q.2 := by
  simp only [mapPanelsM, Bind.bind, Except.bind] at h
  split at h
  · exact Except.noConfusion h
  next panels2 hpanels =>
    cases h
    exact mapPanelsM_fold_clenOK F hF d.panels [] panels2 hpanels
      (by intro q hq; cases hq) hd

lemma check_point_panels (name : Str) (p : Panel) (fs ss : ℤ) (st st2 : ScanState)
    (h : check_point name p fs ss st = .ok st2) : st2.det.panels = st.det.panels := by
  unfold check_point at h
  simp only [] at h
  repeat (any_goals (split at h))
  all_goals first
    | exact Except.noConfusion h
    | (injection h with h2; subst h2; rfl)

lemma scanPanel_panels (st st2 : ScanState) (np : Str × Panel)
    (h : scanPanel st np = .ok st2) : st2.det.panels = st.det.panels := by
  obtain ⟨name, p⟩ := np
  simp only [scanPanel, Bind.bind, Except.bind] at h
  split at h
  · exact Except.noConfusion h
  next stA hA =>
    split at h
    · exact Except.noConfusion h
    next w hw =>
      split at h
      · exact Except.noConfusion h
      next stB hB =>
        split at h
        · exact Except.noConfusion h
        next ht hh =>
          split at h
          · exact Except.noConfusion h
          next stC hC =>
            rw [check_point_panels _ _ _ _ _ _ h, check_point_panels _ _ _ _ _ _ hC,
                check_point_panels _ _ _ _ _ _ hB, check_point_panels _ _ _ _ _ _ hA]

lemma scanFold_panels :
    ∀ (l : List (Str × Panel)) (st st2 : ScanState),
      List.foldlM scanPanel st l = .ok st2 → st2.det.panels = st.det.panels
  | [], st, st2, h => by
    simp only [List.foldlM] at h
    cases h
    rfl
  | np :: rest, st, st2, h => by
    simp only [List.foldlM, Bind.bind, Except.bind] at h
    split at h
    · exact Except.noConfusion h
    next st1 hst1 =>
      rw [scanFold_panels rest st1 st2 h, scanPanel_panels st st1 np hst1]

lemma find_min_max_d_panels (d d2 : Detector)
    (h : find_min_max_d d = .ok d2) : d2.panels = d.panels := by
  simp only [find_min_max_d, Bind.bind, Except.bind] at h
  split at h
  · exact Except.noConfusion h
  next st hst =>
    cases h
    exact scanFold_panels d.panels _ st hst

lemma validateTail_clenOK (d d2 : Detector)
    (h : validateTail d = .ok d2) (hd : ∀ q ∈ d.panels, ClenOK q.2) :
    ∀ q ∈ d2.panels, ClenOK q.2 := by
  simp only [validateTail, Bind.bind, Except.bind] at h
  split at h
  · exact Except.noConfusion h
  next dA hdA =>
    split at h
    · exact Except.noConfusion h
    next dB hdB =>
      split at h
      · exact Except.noConfusion h
      next v1 hv1 =>
        split at h
        · exact Except.noConfusion h
        next v2 hv2 =>
          split at h
          · exact Except.noConfusion h
          next v3 hv3 =>
            split at h
            · exact Except.noConfusion h
            next dC hdC =>
              have hA := dimsPass_clenOK d dA hdA hd
              have hB := mapPanelsM_clenOK completenessPanel
                (fun n p p2 hp2 hok => completenessPanel_clenOK n p p2 hp2 hok)
                dA dB hdB hA
              have hC := mapPanelsM_clenOK (fun _ p => singularPanel p)
                (fun n p p2 hp2 hok => singularPanel_clenOK p p2 hp2 hok)
                dB dC hdC hB
              intro q hq
              rw [find_min_max_d_panels dC d2 h] at hq
              exact hC q hq

lemma validateDetector_clenOK (d d2 : Detector)
    (h : validateDetector d = .ok d2) (hd : ∀ q ∈ d.panels, ClenOK q.2) :
    ∀ q ∈ d2.panels, ClenOK q.2 := by
  simp only [validateDetector, Bind.bind, Except.bind] at h
  repeat (any_goals (split at h))
  all_goals first
    | exact Except.noConfusion h
    | exact validateTail_clenOK d d2 h hd

lemma load_clenOK (lines : List Str) (d : Detector)
    (h : load_crystfel_geometry lines = .ok d) :
    ∀ q ∈ d.panels, ClenOK q.2 := by
  simp only [load_crystfel_geometry, Bind.bind, Except.bind] at h
  split at h
  · exact Except.noConfusion h
  next st hst =>
    have hinv : LoadInv st :=
      foldLines_inv lines {} st hst
        ⟨clenOK_default, fun np hm => absurd hm (List.not_mem_nil np)⟩
    exact validateDetector_clenOK st.detector d h hinv.2

/-- The C2 amended theorem: for every successfully loaded model and every
panel whose camera length was given as a dynamic source path (a stored
clen_from), compute_pix_maps fills the cells of that panel's window of the z
map (whenever no later panel window overwrites them) with the parser's
stored sentinel -1.0, not with 0.0. -/
theorem c2_z_window_gets_sentinel (sqrtQ : ℚ → ℚ) (atan2Q : ℚ → ℚ → ℚ)
    (lines : List Str) (g : Detector) (m : PixelMaps) (k : Nat) (n : Str)
    (p : Panel) (src : Str) (mss mssMax mfs mfsMax : ℤ) (ss fs : ℤ)
    (hload : load_crystfel_geometry lines = .ok g)
    (hm : compute_pix_maps sqrtQ atan2Q g = .ok m)
    (hk : g.panels.get? k = some (n, p))
    (hsrc : p.clen_from = some (some src))
    (h1 : p.min_ss = some mss) (h2 : p.max_ss = some mssMax)
    (h3 : p.min_fs = some mfs) (h4 : p.max_fs = some mfsMax)
    (hss0 : 0 ≤ ss) (hss1 : ss ≤ mssMax - mss)
    (hfs0 : 0 ≤ fs) (hfs1 : fs ≤ mfsMax - mfs)
    (hlater : ∀ np2 ∈ g.panels.drop (k + 1),
      coversCell np2.2 (mss + ss) (mfs + fs) = false) :
    m.z (mss + ss) (mfs + fs) = -1 := by
  have hmem : (n, p) ∈ g.panels := List.get?_mem hk
  have hclen : p.clen = some (-1) := load_clenOK lines g hload (n, p) hmem src hsrc
  simp only [compute_pix_maps, Bind.bind, Except.bind] at hm
  split at hm
  · exact absurd hm (by simp)
  next fsList hfsList =>
    split at hm
    · exact absurd hm (by simp)
    next maxFs hmaxFs =>
      split at hm
      · exact absurd hm (by simp)
      next ssList hssList =>
        split at hm
        · exact absurd hm (by simp)
        next maxSs hmaxSs =>
          split at hm
          · exact absurd hm (by simp)
          next u hguard =>
            split at hm
            · exact absurd hm (by simp)
            next acc hfold =>
              have hcov : coversCell p (mss + ss) (mfs + fs) = true := by
                simp only [coversCell, h1, h2, h3, h4]
                rw [decide_eq_true_iff]
                omega
              obtain ⟨clen2, mss2, mfs2, cnx2, cny2, hcl2, hmss2, hmfs2, hcnx2, hcny2,
                  hx, hy, hz⟩ :=
                placePanel_fold_last_covered (mss + ss) (mfs + fs) g.panels
                  (fun _ _ => 0, fun _ _ => 0, fun _ _ => 0) acc k n p hfold hk hcov hlater
              rw [hclen] at hcl2
              injection hcl2 with hcl2
              subst hcl2
              obtain ⟨xm, ym, zm⟩ := acc
              cases hm
              exact hz

/-- The model loaded from `linesClenFrom`. -/
def detector_c2 : Detector :=
  match load_crystfel_geometry linesClenFrom with
  | .ok d => d
  | .error _ => {}

/-- The panel p0 of `detector_c2`. -/
def panel_c2 : Panel :=
  match alookup (chars ("p0")) detector_c2.panels with
  | some p => p
  | none => {}

/-- The pixel maps of `detector_c2`. -/
def maps_c2 : PixelMaps :=
  match compute_pix_maps (fun q => q) (fun a b => a - b) detector_c2 with
  | .ok m => m
  | .error _ => ⟨0, 0, fun _ _ => 0, fun _ _ => 0, fun _ _ => 0, fun _ _ => 0, fun _ _ => 0⟩

/-- Witness for the C2 amended theorem at the `linesClenFrom` model: panel p0
stores the dynamic path /x/clen and the single cell of its window receives
the z value -1. -/
theorem c2_z_window_gets_sentinel_witness :
    load_crystfel_geometry linesClenFrom = .ok detector_c2 ∧
    compute_pix_maps (fun q => q) (fun a b => a - b) detector_c2 = .ok maps_c2 ∧
    detector_c2.panels.get? 0 = some (chars ("p0"), panel_c2) ∧
    panel_c2.clen_from = some (some (chars ("/x/clen"))) ∧
    maps_c2.z ((0 : ℤ) + 0) ((0 : ℤ) + 0) = -1 :=
  ⟨rfl, rfl, by decide, by decide,
    c2_z_window_gets_sentinel (fun q => q) (fun a b => a - b) linesClenFrom
      detector_c2 maps_c2 0 (chars ("p0")) panel_c2 (chars ("/x/clen"))
      0 0 0 0 0 0 rfl rfl (by decide) (by decide) (by decide) (by decide)
      (by decide) (by decide) (by decide) (by decide) (by decide) (by decide)
      (by intro np2 hmem
          rw [show detector_c2.panels.drop (0 + 1) = [] from by decide] at hmem
          exact absurd hmem (List.not_mem_nil np2))⟩

/-- The inverse-transform coefficients stored by the singularity loop. -/
def InvOK (p : Panel) : Prop :=
  panelDet p ≠ 0 ∧ p.xfs = some (p.ssy / panelDet p) ∧
  p.yfs = some (p.ssx / panelDet p) ∧ p.xss = some (p.fsy / panelDet p) ∧
  p.yss = some (p.fsx / panelDet p)

lemma singularPanel_invOK (p p2 : Panel) (h : singularPanel p = .ok p2) :
    InvOK p2 := by
  unfold singularPanel at h
  simp only [] at h
  split at h
  · exact Except.noConfusion h
  next hne =>
    injection h with h2
    subst h2
    exact ⟨hne, rfl, rfl, rfl, rfl⟩

lemma mapPanelsM_fold_post (F : Str → Panel → Except PyErr Panel)
    (P : Panel → Prop) (hF : ∀ n p p2, F n p = .ok p2 → P p2) :
    ∀ (ps acc res : List (Str × Panel)),
      List.foldlM (fun acc np => do
          let p2 ← F np.1 np.2
          Except.ok (acc ++ [(np.1, p2)])) acc ps = .ok res →
      (∀ q ∈ acc, P q.2) → ∀ q ∈ res, P q.2
  | [], acc, res, h, ha => by
    simp only [List.foldlM] at h
    cases h
    exact ha
  | np :: rest, acc, res, h, ha => by
    simp only [List.foldlM, Bind.bind, Except.bind] at h
    split at h
    · exact Except.noConfusion h
    next acc1 hstep =>
      split at hstep
      · exact Except.noConfusion hstep
      next pq hpq =>
        injection hstep with h2
        subst h2
        refine mapPanelsM_fold_post F P hF rest (acc ++ [(np.1, pq)]) res h ?_
        intro q hq
        rcases List.mem_append.mp hq with hq | hq
        · exact ha q hq
        · rcases List.mem_singleton.mp hq with rfl
          exact hF np.1 np.2 pq hpq

lemma singularPass_invOK (d d2 : Detector) (h : singularPass d = .ok d2) :
    ∀ q ∈ d2.panels, InvOK q.2 := by
  simp only [singularPass, mapPanelsM, Bind.bind, Except.bind] at h
  split at h
  · exact Except.noConfusion h
  next panels2 hpanels =>
    cases h
    exact mapPanelsM_fold_post (fun _ p => singularPanel p) InvOK
      (fun n p p2 hp2 => singularPanel_invOK p p2 hp2)
      d.panels [] panels2 hpanels (by intro q hq; cases hq)

lemma validateTail_invOK (d d2 : Detector) (h : validateTail d = .ok d2) :
    ∀ q ∈ d2.panels, InvOK q.2 := by
  simp only [validateTail, Bind.bind, Except.bind] at h
  split at h
  · exact Except.noConfusion h
  next dA hdA =>
    split at h
    · exact Except.noConfusion h
    next dB hdB =>
      split at h
      · exact Except.noConfusion h
      next v1 hv1 =>
        split at h
        · exact Except.noConfusion h
        next v2 hv2 =>
          split at h
          · exact Except.noConfusion h
          next v3 hv3 =>
            split at h
            · exact Except.noConfusion h
            next dC hdC =>
              intro q hq
              rw [find_min_max_d_panels dC d2 h] at hq
              exact singularPass_invOK dB dC hdC q hq

lemma validateDetector_invOK (d d2 : Detector) (h : validateDetector d = .ok d2) :
    ∀ q ∈ d2.panels, InvOK q.2 := by
  simp only [validateDetector, Bind.bind, Except.bind] at h
  repeat (any_goals (split at h))
  all_goals first
    | exact Except.noConfusion h
    | exact validateTail_invOK d d2 h

/-- The C4 amended theorem: for every panel of a successfully loaded model
the fast/slow-scan determinant d = fsx*ssy - ssx*fsy is nonzero and the
inverse coefficients are stored as xfs = ssy/d, yfs = ssx/d, xss = fsy/d,
yss = fsx/d; and on any panel whose determinant is zero the singularity
check fails with the GeometryError whose message keeps the literal
placeholder braces (the source forgot the .format call). -/
theorem c4_singularity_and_inverse_coefficients (lines : List Str) (d : Detector)
    (hload : load_crystfel_geometry lines = .ok d) :
    (∀ q ∈ d.panels, panelDet q.2 ≠ 0 ∧
      q.2.xfs = some (q.2.ssy / panelDet q.2) ∧
      q.2.yfs = some (q.2.ssx / panelDet q.2) ∧
      q.2.xss = some (q.2.fsy / panelDet q.2) ∧
      q.2.yss = some (q.2.fsx / panelDet q.2)) ∧
    (∀ p : Panel, panelDet p = 0 →
      singularPanel p =
        .error (.runtimeError (chars ("Panel \x7b\x7d transformation is singular.")))) := by
  constructor
  · simp only [load_crystfel_geometry, Bind.bind, Except.bind] at hload
    split at hload
    · exact Except.noConfusion hload
    next st hst =>
      exact validateDetector_invOK st.detector d hload
  · intro p h0
    unfold singularPanel
    simp only []
    rw [if_pos h0]

/-- The model loaded from `linesFsxSsx` (fs = x together with ss = x). -/
def detector_c4 : Detector :=
  match load_crystfel_geometry linesFsxSsx with
  | .ok d => d
  | .error _ => {}

/-- Witness for C4 at the `linesFsxSsx` model: the load succeeds (so every
panel satisfies the determinant and inverse-coefficient facts), and
concretely p0 has determinant 1 and xfs = 1. -/
theorem c4_singularity_witness :
    load_crystfel_geometry linesFsxSsx = .ok detector_c4 ∧
    ((∀ q ∈ detector_c4.panels, panelDet q.2 ≠ 0 ∧
        q.2.xfs = some (q.2.ssy / panelDet q.2) ∧
        q.2.yfs = some (q.2.ssx / panelDet q.2) ∧
        q.2.xss = some (q.2.fsy / panelDet q.2) ∧
        q.2.yss = some (q.2.fsx / panelDet q.2)) ∧
      (∀ p : Panel, panelDet p = 0 →
        singularPanel p =
          .error (.runtimeError (chars ("Panel \x7b\x7d transformation is singular."))))) ∧
    (alookup (chars ("p0")) detector_c4.panels).map panelDet = some 1 ∧
    (alookup (chars ("p0")) detector_c4.panels).map Panel.xfs = some (some 1) :=
  ⟨rfl, c4_singularity_and_inverse_coefficients linesFsxSsx detector_c4 rfl,
    by decide, by decide⟩

/-- The C10 theorem: a top-level coffset line rewrites only the shared
default-panel record (detector and beam, hence every existing panel, are
returned untouched); no top-level line ever changes the panel map; a panel
first mentioned afterwards is created by applying the field setter to a copy
of the current default record, while a panel that already exists is updated
from its own record (and the shared default record is then left alone); and
a panel-scope setter for any field other than coffset preserves the coffset
the panel inherited at creation. -/
theorem c10_toplevel_coffset :
    (∀ (value : Str) (det : Detector) (beam : Beam) (dp : Panel) (q : ℚ),
      pyFloat value = some q →
      parse_toplevel (chars ("coffset")) value det beam dp =
        .ok (det, beam, { dp with coffset := q })) ∧
    (∀ (st st2 : LoadState) (key value : Str),
      toplevelStep st key value = .ok st2 →
      st2.detector.panels = st.detector.panels) ∧
    (∀ (st st2 : LoadState) (name field value : Str),
      alookup name st.detector.panels = none →
      panelStep st name field value = .ok st2 →
      ∃ p2, parse_field_for_panel field value st.default_panel = .ok p2 ∧
        st2 = { st with detector :=
          { st.detector with panels := aset name p2 st.detector.panels } }) ∧
    (∀ (st st2 : LoadState) (name field value : Str) (p : Panel),
      alookup name st.detector.panels = some p →
      panelStep st name field value = .ok st2 →
      st2.default_panel = st.default_panel ∧
      ∃ p2, parse_field_for_panel field value p = .ok p2 ∧
        st2 = { st with detector :=
          { st.detector with panels := aset name p2 st.detector.panels } }) ∧
    (∀ (field value : Str) (p p2 : Panel),
      parse_field_for_panel field value p = .ok p2 →
      field ≠ chars ("coffset") → p2.coffset = p.coffset) := by
  refine ⟨?_, ?_, ?_, ?_, ?_⟩
  · intro value det beam dp q hq
    unfold parse_toplevel
    rw [if_neg (by decide), if_neg (by decide), if_pos rfl, hq]
  · intro st st2 key value h
    unfold toplevelStep at h
    split at h
    next d b p hok =>
      injection h with h2
      subst h2
      exact (parse_toplevel_panels_clenOK key value st.detector st.beam
        st.default_panel (d, b, p) hok).1
    next e he => exact Except.noConfusion h
  · intro st st2 name field value hnone h
    unfold panelStep at h
    simp only [] at h
    rw [hnone] at h
    split at h
    next p2 hp2 =>
      injection h with h2
      subst h2
      exact ⟨p2, hp2, rfl⟩
    next e he => exact Except.noConfusion h
  · intro st st2 name field value p hsome h
    unfold panelStep at h
    simp only [] at h
    rw [hsome] at h
    split at h
    next p2 hp2 =>
      injection h with h2
      subst h2
      exact ⟨rfl, p2, hp2, rfl⟩
    next e he => exact Except.noConfusion h
  · intro field value p p2 h hne
    exact (parse_field_for_panel_coffset_clen field value p p2 h).1 hne

/-- A two-panel geometry with a top-level coffset line between the two
panels' first mentions. -/
def lines_c10 : List Str :=
  [chars ("p0/min_fs = 0"), chars ("p0/max_fs = 3"), chars ("p0/min_ss = 0"),
   chars ("p0/max_ss = 3"), chars ("p0/corner_x = 0"), chars ("p0/corner_y = 0"),
   chars ("p0/clen = 0.1"), chars ("p0/res = 1"), chars ("p0/adu_per_eV = 1"),
   chars ("coffset = 7.5"),
   chars ("p1/min_fs = 4"), chars ("p1/max_fs = 7"), chars ("p1/min_ss = 0"),
   chars ("p1/max_ss = 3"), chars ("p1/corner_x = 5"), chars ("p1/corner_y = 0"),
   chars ("p1/clen = 0.1"), chars ("p1/res = 1"), chars ("p1/adu_per_eV = 1")]

/-- Witness for C10: the top-level setter at value 7.5 rewrites only the
default record, and in the loaded two-panel model the panel created before
the coffset line keeps coffset 0 while the one created after inherits 7.5. -/
theorem c10_toplevel_coffset_witness :
    pyFloat (chars ("7.5")) = some (15 / 2) ∧
    parse_toplevel (chars ("coffset")) (chars ("7.5")) ({} : Detector) ({} : Beam)
        ({} : Panel) = .ok ({}, {}, { ({} : Panel) with coffset := 15 / 2 }) ∧
    (load_crystfel_geometry lines_c10).map
        (fun d => ((alookup (chars ("p0")) d.panels).map Panel.coffset,
                   (alookup (chars ("p1")) d.panels).map Panel.coffset)) =
      .ok (some 0, some (15 / 2)) :=
  ⟨by decide,
   c10_toplevel_coffset.1 (chars ("7.5")) {} {} {} (15 / 2) (by decide),
   by decide⟩

/-- The squared distance of one corner evaluation (name, panel, fs, ss). -/
def cornerDist (c : Str × Panel × ℤ × ℤ) : ℚ := distSqOf c.2.1 c.2.2.1 c.2.2.2

/-- The four corner evaluations of one panel, in the order the scan visits
them; empty when the derived width or height is absent (the scan would fail
on such a panel). -/
def panelCorners (np : Str × Panel) : List (Str × Panel × ℤ × ℤ) :=
  match np.2.w, np.2.h with
  | some w, some h =>
    [(np.1, np.2, 0, 0), (np.1, np.2, w, 0), (np.1, np.2, 0, h), (np.1, np.2, w, h)]
  | _, _ => []

/-- All corner evaluations of a model in scan order. -/
def allCorners (d : Detector) : List (Str × Panel × ℤ × ℤ) :=
  d.panels.flatMap panelCorners

/-- No extremal field has been assigned yet. -/
def FurNone (d : Detector) : Prop :=
  d.furthest_out_panel = none ∧ d.furthest_out_fs = none ∧ d.furthest_out_ss = none ∧
  d.furthest_in_panel = none ∧ d.furthest_in_fs = none ∧ d.furthest_in_ss = none

lemma foldl_max_init : ∀ (l : List ℚ) (a : ℚ), a ≤ l.foldl max a
  | [], a => le_refl a
  | x :: xs, a => le_trans (le_max_left a x) (foldl_max_init xs (max a x))

lemma foldl_max_mem : ∀ (l : List ℚ) (a b : ℚ), b ∈ l → b ≤ l.foldl max a
  | [], _, b, hb => absurd hb (List.not_mem_nil b)
  | x :: xs, a, b, hb => by
    rcases List.mem_cons.mp hb with rfl | hb
    · exact le_trans (le_max_right a b) (foldl_max_init xs (max a b))
    · exact foldl_max_mem xs (max a x) b hb

lemma foldl_max_zero : ∀ (l : List ℚ), (∀ x ∈ l, x = 0) → l.foldl max 0 = 0
  | [], _ => rfl
  | x :: xs, h => by
    have hx : x = 0 := h x (List.mem_cons_self x xs)
    show xs.foldl max (max 0 x) = 0
    rw [hx, max_self]
    exact foldl_max_zero xs (fun y hy => h y (List.mem_cons_of_mem x hy))

lemma foldl_max_snoc (l : List ℚ) (a b : ℚ) :
    (l ++ [b]).foldl max a = max (l.foldl max a) b := by
  rw [List.foldl_append]
  rfl

/-- The invariant of the extremal scan after the corners C have been
processed, relative to the pre-scan detector d0: the running maximum is the
maximum of the processed squared distances and zero; when positive it is
witnessed by a processed corner whose coordinates sit in the furthest_out
fields, and otherwise those fields still hold their pre-scan values; the
furthest_in fields either still hold their pre-scan values (with no running
minimum yet) or name a processed corner whose squared distance is the
running minimum. -/
def ScanInv (d0 : Detector) (C : List (Str × Panel × ℤ × ℤ)) (st : ScanState) : Prop :=
  st.max_d_sq = (C.map cornerDist).foldl max 0 ∧
  (0 < st.max_d_sq → ∃ c ∈ C, cornerDist c = st.max_d_sq ∧
    st.det.furthest_out_panel = some c.1 ∧
    st.det.furthest_out_fs = some c.2.2.1 ∧
    st.det.furthest_out_ss = some c.2.2.2) ∧
  (¬ 0 < st.max_d_sq →
    st.det.furthest_out_panel = d0.furthest_out_panel ∧
    st.det.furthest_out_fs = d0.furthest_out_fs ∧
    st.det.furthest_out_ss = d0.furthest_out_ss) ∧
  ((st.min_d_sq = none ∧
      st.det.furthest_in_panel = d0.furthest_in_panel ∧
      st.det.furthest_in_fs = d0.furthest_in_fs ∧
      st.det.furthest_in_ss = d0.furthest_in_ss) ∨
    (∃ c ∈ C, st.min_d_sq = some (cornerDist c) ∧
      st.det.furthest_in_panel = some c.1 ∧
      st.det.furthest_in_fs = some c.2.2.1 ∧
      st.det.furthest_in_ss = some c.2.2.2))

lemma check_point_inv (d0 : Detector) (C : List (Str × Panel × ℤ × ℤ))
    (name : Str) (p : Panel) (fs ss : ℤ) (st st2 : ScanState)
    (h : check_point name p fs ss st = .ok st2) (hinv : ScanInv d0 C st) :
    ScanInv d0 (C ++ [(name, p, fs, ss)]) st2 := by
  obtain ⟨hmax, hout, houtn, hin⟩ := hinv
  have h0 : (0 : ℚ) ≤ st.max_d_sq := by
    rw [hmax]
    exact foldl_max_init _ 0
  unfold check_point at h
  split at h
  case h_2 => exact Except.noConfusion h
  next cx cy heqx heqy =>
    split at h
    · exact Except.noConfusion h
    next hres =>
      simp only [] at h
      split at h
      next hgt =>
        injection h with h2
        subst h2
        refine ⟨?_, ?_, ?_, ?_⟩
        · show distSqOf p fs ss = _
          simp only [List.map_append, List.map_cons, List.map_nil]
          rw [foldl_max_snoc, ← hmax]
          exact (max_eq_right (le_of_lt hgt)).symm
        · intro hp
          exact ⟨(name, p, fs, ss),
            List.mem_append.mpr (Or.inr (List.mem_singleton.mpr rfl)),
            rfl, rfl, rfl, rfl⟩
        · intro hn
          exact absurd (lt_of_le_of_lt h0 hgt) hn
        · rcases hin with hl | ⟨c0, hc0, hrest⟩
          · exact Or.inl hl
          · exact Or.inr ⟨c0, List.mem_append_left _ hc0, hrest⟩
      next hngt =>
        have hle : distSqOf p fs ss ≤ st.max_d_sq := le_of_not_lt hngt
        split at h
        · injection h with h2
          subst h2
          refine ⟨?_, ?_, ?_, ?_⟩
          · show st.max_d_sq = _
            simp only [List.map_append, List.map_cons, List.map_nil]
            rw [foldl_max_snoc, ← hmax]
            exact (max_eq_left hle).symm
          · intro hp
            obtain ⟨c0, hc0, hrest⟩ := hout hp
            exact ⟨c0, List.mem_append_left _ hc0, hrest⟩
          · intro hn
            exact houtn hn
          · exact Or.inr ⟨(name, p, fs, ss),
              List.mem_append.mpr (Or.inr (List.mem_singleton.mpr rfl)),
              rfl, rfl, rfl, rfl⟩
        · injection h with h2
          subst h2
          refine ⟨?_, ?_, ?_, ?_⟩
          · show st.max_d_sq = _
            simp only [List.map_append, List.map_cons, List.map_nil]
            rw [foldl_max_snoc, ← hmax]
            exact (max_eq_left hle).symm
          · intro hp
            obtain ⟨c0, hc0, hrest⟩ := hout hp
            exact ⟨c0, List.mem_append_left _ hc0, hrest⟩
          · intro hn
            exact houtn hn
          · rcases hin with hl | ⟨c0, hc0, hrest⟩
            · exact Or.inl hl
            · exact Or.inr ⟨c0, List.mem_append_left _ hc0, hrest⟩

lemma scanPanel_inv (d0 : Detector) (C : List (Str × Panel × ℤ × ℤ))
    (st st2 : ScanState) (np : Str × Panel)
    (h : scanPanel st np = .ok st2) (hinv : ScanInv d0 C st) :
    ScanInv d0 (C ++ panelCorners np) st2 := by
  obtain ⟨name, p⟩ := np
  simp only [scanPanel, Bind.bind, Except.bind] at h
  split at h
  · exact Except.noConfusion h
  next stA hA =>
    split at h
    · exact Except.noConfusion h
    next w hw =>
      split at h
      · exact Except.noConfusion h
      next stB hB =>
        split at h
        · exact Except.noConfusion h
        next ht hh =>
          split at h
          · exact Except.noConfusion h
          next stC hC =>
            have hpw : p.w = some w := dictLookup_ok hw
            have hph : p.h = some ht := dictLookup_ok hh
            have hcor : panelCorners (name, p) =
                [(name, p, 0, 0), (name, p, w, 0), (name, p, 0, ht), (name, p, w, ht)] := by
              simp only [panelCorners]
              rw [hpw, hph]
            rw [hcor]
            have i1 := check_point_inv d0 C name p 0 0 st stA hA hinv
            have i2 := check_point_inv d0 (C ++ [(name, p, 0, 0)]) name p w 0 stA stB hB i1
            have i3 := check_point_inv d0 ((C ++ [(name, p, 0, 0)]) ++ [(name, p, w, 0)])
              name p 0 ht stB stC hC i2
            have i4 := check_point_inv d0
              (((C ++ [(name, p, 0, 0)]) ++ [(name, p, w, 0)]) ++ [(name, p, 0, ht)])
              name p w ht stC st2 h i3
            have : (((C ++ [(name, p, 0, 0)]) ++ [(name, p, w, 0)]) ++ [(name, p, 0, ht)])
                ++ [(name, p, w, ht)] =
                C ++ [(name, p, 0, 0), (name, p, w, 0), (name, p, 0, ht), (name, p, w, ht)] := by
              simp only [List.append_assoc]
              rfl
            rw [this] at i4
            exact i4

lemma scanFold_inv (d0 : Detector) :
    ∀ (l : List (Str × Panel)) (C : List (Str × Panel × ℤ × ℤ)) (st st2 : ScanState),
      List.foldlM scanPanel st l = .ok st2 → ScanInv d0 C st →
      ScanInv d0 (C ++ l.flatMap panelCorners) st2
  | [], C, st, st2, h, hinv => by
    simp only [List.foldlM] at h
    cases h
    simpa using hinv
  | np :: rest, C, st, st2, h, hinv => by
    simp only [List.foldlM, Bind.bind, Except.bind] at h
    split at h
    · exact Except.noConfusion h
    next st1 hst1 =>
      have i1 := scanPanel_inv d0 C st st1 np hst1 hinv
      have i2 := scanFold_inv d0 rest (C ++ panelCorners np) st1 st2 h i1
      rw [List.flatMap_cons, ← List.append_assoc]
      exact i2

lemma scanInv_initial (d0 : Detector) :
    ScanInv d0 [] { min_d_sq := none, max_d_sq := 0, det := d0 } := by
  refine ⟨rfl, ?_, ?_, Or.inl ⟨rfl, rfl, rfl, rfl⟩⟩
  · intro hp
    exact absurd hp (by norm_num)
  · intro _
    exact ⟨rfl, rfl, rfl⟩

lemma find_min_max_d_extrema (d d2 : Detector) (h : find_min_max_d d = .ok d2) :
    ∃ st : ScanState, d2 = st.det ∧ ScanInv d (allCorners d) st := by
  simp only [find_min_max_d, Bind.bind, Except.bind] at h
  split at h
  · exact Except.noConfusion h
  next st hst =>
    cases h
    refine ⟨st, rfl, ?_⟩
    have i := scanFold_inv d d.panels [] { min_d_sq := none, max_d_sq := 0, det := d }
      st hst (scanInv_initial d)
    exact i

lemma parse_toplevel_fur (key value : Str) (det : Detector) (beam : Beam)
    (dp : Panel) (tr : Detector × Beam × Panel)
    (h : parse_toplevel key value det beam dp = .ok tr) :
    tr.1.furthest_out_panel = det.furthest_out_panel ∧
    tr.1.furthest_out_fs = det.furthest_out_fs ∧
    tr.1.furthest_out_ss = det.furthest_out_ss ∧
    tr.1.furthest_in_panel = det.furthest_in_panel ∧
    tr.1.furthest_in_fs = det.furthest_in_fs ∧
    tr.1.furthest_in_ss = det.furthest_in_ss := by
  unfold parse_toplevel at h
  by_cases t1 : key = chars ("mask_bad")
  · rw [if_pos t1] at h
    repeat (any_goals (split at h))
    all_goals first
      | exact Except.noConfusion h
      | (injection h with h2; subst h2; exact ⟨rfl, rfl, rfl, rfl, rfl, rfl⟩)
  rw [if_neg t1] at h
  by_cases t2 : key = chars ("mask_good")
  · rw [if_pos t2] at h
    repeat (any_goals (split at h))
    all_goals first
      | exact Except.noConfusion h
      | (injection h with h2; subst h2; exact ⟨rfl, rfl, rfl, rfl, rfl, rfl⟩)
  rw [if_neg t2] at h
  by_cases t3 : key = chars ("coffset")
  · rw [if_pos t3] at h
    split at h
    · injection h with h2
      subst h2
      exact ⟨rfl, rfl, rfl, rfl, rfl, rfl⟩
    · exact Except.noConfusion h
  rw [if_neg t3] at h
  by_cases t4 : key = chars ("photon_energy")
  · rw [if_pos t4] at h
    repeat (any_goals (split at h))
    all_goals first
      | exact Except.noConfusion h
      | (injection h with h2; subst h2; exact ⟨rfl, rfl, rfl, rfl, rfl, rfl⟩)
  rw [if_neg t4] at h
  by_cases t5 : key = chars ("photon_energy_scale")
  · rw [if_pos t5] at h
    repeat (any_goals (split at h))
    all_goals first
      | exact Except.noConfusion h
      | (injection h with h2; subst h2; exact ⟨rfl, rfl, rfl, rfl, rfl, rfl⟩)
  rw [if_neg t5] at h
  by_cases t6 : key = chars ("peak_info_location")
  · rw [if_pos t6] at h
    injection h with h2
    subst h2
    exact ⟨rfl, rfl, rfl, rfl, rfl, rfl⟩
  rw [if_neg t6] at h
  by_cases t7 : startsWith (chars ("rigid_group")) key = true ∧
      ¬ startsWith (chars ("rigid_group_collection")) key = true
  · rw [if_pos t7] at h
    injection h with h2
    subst h2
    exact ⟨rfl, rfl, rfl, rfl, rfl, rfl⟩
  rw [if_neg t7] at h
  by_cases t8 : startsWith (chars ("rigid_group_collection")) key = true
  · rw [if_pos t8] at h
    injection h with h2
    subst h2
    exact ⟨rfl, rfl, rfl, rfl, rfl, rfl⟩
  rw [if_neg t8] at h
  split at h
  next p2 hp2 =>
    injection h with h2
    subst h2
    exact ⟨rfl, rfl, rfl, rfl, rfl, rfl⟩
  next e he => exact Except.noConfusion h

lemma panelStep_fur (st st2 : LoadState) (name field value : Str)
    (h : panelStep st name field value = .ok st2) (hf : FurNone st.detector) :
    FurNone st2.detector := by
  unfold panelStep at h
  simp only [] at h
  repeat (any_goals (split at h))
  all_goals first
    | exact Except.noConfusion h
    | (injection h with h2; subst h2; exact hf)

lemma badStep_fur (st st2 : LoadState) (name field value : Str)
    (h : badStep st name field value = .ok st2) (hf : FurNone st.detector) :
    FurNone st2.detector := by
  unfold badStep at h
  simp only [] at h
  repeat (any_goals (split at h))
  all_goals first
    | exact Except.noConfusion h
    | (injection h with h2; subst h2; exact hf)

lemma toplevelStep_fur (st st2 : LoadState) (key value : Str)
    (h : toplevelStep st key value = .ok st2) (hf : FurNone st.detector) :
    FurNone st2.detector := by
  unfold toplevelStep at h
  split at h
  next d2 b2 p2 htr =>
    injection h with h3
    subst h3
    obtain ⟨e1, e2, e3, e4, e5, e6⟩ := parse_toplevel_fur key value st.detector st.beam
      st.default_panel (d2, b2, p2) htr
    exact ⟨e1.trans hf.1, e2.trans hf.2.1, e3.trans hf.2.2.1,
      e4.trans hf.2.2.2.1, e5.trans hf.2.2.2.2.1, e6.trans hf.2.2.2.2.2⟩
  next e he => exact Except.noConfusion h

lemma dispatchKV_fur (st st2 : LoadState) (key value : Str)
    (h : dispatchKV st key value = .ok st2) (hf : FurNone st.detector) :
    FurNone st2.detector := by
  unfold dispatchKV at h
  rcases hpath : splitPath key with _ | ⟨name, _ | ⟨field, tail⟩⟩ <;> rw [hpath] at h
  · exact toplevelStep_fur st st2 key value h hf
  · exact toplevelStep_fur st st2 key value h hf
  · have h2 : (if startsWith (chars ("bad")) name = true then badStep st name field value
        else panelStep st name field value) = .ok st2 := h
    by_cases hbad : startsWith (chars ("bad")) name = true
    · rw [if_pos hbad] at h2
      exact badStep_fur st st2 name field value h2 hf
    · rw [if_neg hbad] at h2
      exact panelStep_fur st st2 name field value h2 hf

lemma processLine_fur (st st2 : LoadState) (line : Str)
    (h : processLine st line = .ok st2) (hf : FurNone st.detector) :
    FurNone st2.detector := by
  unfold processLine at h
  split at h
  · cases h; exact hf
  · simp only [] at h
    split at h
    next item0 item1 rest =>
      split at h
      · cases h; exact hf
      · split at h
        · cases h; exact hf
        · exact dispatchKV_fur st st2 _ _ h hf
    next => cases h; exact hf

lemma foldLines_fur :
    ∀ (lines : List Str) (st st2 : LoadState),
      List.foldlM processLine st lines = .ok st2 →
      FurNone st.detector → FurNone st2.detector
  | [], st, st2, h, hf => by
    simp only [List.foldlM] at h
    cases h
    exact hf
  | line :: rest, st, st2, h, hf => by
    simp only [List.foldlM, Bind.bind, Except.bind] at h
    split at h
    · exact absurd h (by simp)
    next st1 hst1 =>
      exact foldLines_fur rest st1 st2 h (processLine_fur st st1 line hst1 hf)

lemma dimsPass_fur (d d2 : Detector) (h : dimsPass d = .ok d2) (hf : FurNone d) :
    FurNone d2 := by
  simp only [dimsPass, Bind.bind, Except.bind] at h
  split at h
  · exact Except.noConfusion h
  next acc hacc =>
    cases h
    exact hf

lemma mapPanelsM_fur (F : Str → Panel → Except PyErr Panel) (d d2 : Detector)
    (h : mapPanelsM F d = .ok d2) (hf : FurNone d) : FurNone d2 := by
  simp only [mapPanelsM, Bind.bind, Except.bind] at h
  split at h
  · exact Except.noConfusion h
  next panels2 hpanels =>
    cases h
    exact hf

lemma validateTail_extrema (d d2 : Detector) (h : validateTail d = .ok d2)
    (hf : FurNone d) :
    ∃ dpre : Detector, FurNone dpre ∧ d2.panels = dpre.panels ∧
      ∃ st : ScanState, d2 = st.det ∧ ScanInv dpre (allCorners dpre) st := by
  simp only [validateTail, Bind.bind, Except.bind] at h
  split at h
  · exact Except.noConfusion h
  next dA hdA =>
    split at h
    · exact Except.noConfusion h
    next dB hdB =>
      split at h
      · exact Except.noConfusion h
      next v1 hv1 =>
        split at h
        · exact Except.noConfusion h
        next v2 hv2 =>
          split at h
          · exact Except.noConfusion h
          next v3 hv3 =>
            split at h
            · exact Except.noConfusion h
            next dC hdC =>
              have hfA := dimsPass_fur d dA hdA hf
              have hfB := mapPanelsM_fur completenessPanel dA dB hdB hfA
              have hfC := mapPanelsM_fur (fun _ p => singularPanel p) dB dC hdC hfB
              obtain ⟨st, hd2, hinv⟩ := find_min_max_d_extrema dC d2 h
              exact ⟨dC, hfC, find_min_max_d_panels dC d2 h, st, hd2, hinv⟩

lemma validateDetector_extrema (d d2 : Detector) (h : validateDetector d = .ok d2)
    (hf : FurNone d) :
    ∃ dpre : Detector, FurNone dpre ∧ d2.panels = dpre.panels ∧
      ∃ st : ScanState, d2 = st.det ∧ ScanInv dpre (allCorners dpre) st := by
  simp only [validateDetector, Bind.bind, Except.bind] at h
  repeat (any_goals (split at h))
  all_goals first
    | exact Except.noConfusion h
    | exact validateTail_extrema d d2 h hf

/-- The C7 amended theorem: in a successfully loaded model, whenever some
corner evaluation has positive squared distance the furthest_out fields are
present and identify a corner of maximal distance among the four corners of
all panels; when every corner distance is zero they stay absent; and the
furthest_in fields are either absent entirely (which the elif in the scan
makes possible) or identify one of the corners, with no minimality
guarantee. -/
theorem c7_extrema_scan (lines : List Str) (d : Detector)
    (hload : load_crystfel_geometry lines = .ok d) :
    ((∃ c ∈ allCorners d, 0 < cornerDist c) →
      ∃ c ∈ allCorners d,
        d.furthest_out_panel = some c.1 ∧
        d.furthest_out_fs = some c.2.2.1 ∧
        d.furthest_out_ss = some c.2.2.2 ∧
        ∀ c2 ∈ allCorners d, cornerDist c2 ≤ cornerDist c) ∧
    ((∀ c ∈ allCorners d, cornerDist c = 0) →
      d.furthest_out_panel = none ∧ d.furthest_out_fs = none ∧
      d.furthest_out_ss = none) ∧
    (d.furthest_in_panel = none ∨
      ∃ c ∈ allCorners d,
        d.furthest_in_panel = some c.1 ∧
        d.furthest_in_fs = some c.2.2.1 ∧
        d.furthest_in_ss = some c.2.2.2) := by
  simp only [load_crystfel_geometry, Bind.bind, Except.bind] at hload
  split at hload
  · exact Except.noConfusion hload
  next st0 hst0 =>
    have hf0 : FurNone st0.detector :=
      foldLines_fur lines {} st0 hst0 ⟨rfl, rfl, rfl, rfl, rfl, rfl⟩
    obtain ⟨dpre, hfpre, hpan, st, hd, hinv⟩ :=
      validateDetector_extrema st0.detector d hload hf0
    subst hd
    obtain ⟨hmax, hout, houtn, hin⟩ := hinv
    have hac : allCorners st.det = allCorners dpre := by
      unfold allCorners
      rw [hpan]
    refine ⟨?_, ?_, ?_⟩
    · rintro ⟨c, hc, hcpos⟩
      rw [hac] at hc
      have hcle : cornerDist c ≤ st.max_d_sq := by
        rw [hmax]
        exact foldl_max_mem _ 0 _ (List.mem_map_of_mem cornerDist hc)
      obtain ⟨c0, hc0, hdist, f1, f2, f3⟩ := hout (lt_of_lt_of_le hcpos hcle)
      refine ⟨c0, ?_, f1, f2, f3, ?_⟩
      · rw [hac]
        exact hc0
      · intro c2 hc2
        rw [hac] at hc2
        rw [hdist, hmax]
        exact foldl_max_mem _ 0 _ (List.mem_map_of_mem cornerDist hc2)
    · intro hall
      have hz : st.max_d_sq = 0 := by
        rw [hmax]
        refine foldl_max_zero _ ?_
        intro x hx
        obtain ⟨c, hc, rfl⟩ := List.mem_map.mp hx
        refine hall c ?_
        rw [hac]
        exact hc
      have hn : ¬ 0 < st.max_d_sq := by
        rw [hz]
        exact lt_irrefl 0
      obtain ⟨g1, g2, g3⟩ := houtn hn
      exact ⟨g1.trans hfpre.1, g2.trans hfpre.2.1, g3.trans hfpre.2.2.1⟩
    · rcases hin with ⟨hmin, g1, g2, g3⟩ | ⟨c0, hc0, hm, g1, g2, g3⟩
      · exact Or.inl (g1.trans hfpre.2.2.2.1)
      · refine Or.inr ⟨c0, ?_, g1, g2, g3⟩
        rw [hac]
        exact hc0

/-- The model loaded from `linesIncreasingCorners`. -/
def detector_c7 : Detector :=
  match load_crystfel_geometry linesIncreasingCorners with
  | .ok d => d
  | .error _ => {}

/-- Witness for the C7 amended theorem at the `linesIncreasingCorners`
model: the furthest_out fields identify the maximal corner (1, 10) of p0,
and the furthest_in fields are absent. -/
theorem c7_extrema_scan_witness :
    load_crystfel_geometry linesIncreasingCorners = .ok detector_c7 ∧
    (((∃ c ∈ allCorners detector_c7, 0 < cornerDist c) →
        ∃ c ∈ allCorners detector_c7,
          detector_c7.furthest_out_panel = some c.1 ∧
          detector_c7.furthest_out_fs = some c.2.2.1 ∧
          detector_c7.furthest_out_ss = some c.2.2.2 ∧
          ∀ c2 ∈ allCorners detector_c7, cornerDist c2 ≤ cornerDist c) ∧
      ((∀ c ∈ allCorners detector_c7, cornerDist c = 0) →
        detector_c7.furthest_out_panel = none ∧
        detector_c7.furthest_out_fs = none ∧
        detector_c7.furthest_out_ss = none) ∧
      (detector_c7.furthest_in_panel = none ∨
        ∃ c ∈ allCorners detector_c7,
          detector_c7.furthest_in_panel = some c.1 ∧
          detector_c7.furthest_in_fs = some c.2.2.1 ∧
          detector_c7.furthest_in_ss = some c.2.2.2)) ∧
    detector_c7.furthest_out_panel = some (chars ("p0")) ∧
    detector_c7.furthest_out_fs = some 1 ∧
    detector_c7.furthest_out_ss = some 10 ∧
    detector_c7.furthest_in_panel = none :=
  ⟨rfl, c7_extrema_scan linesIncreasingCorners detector_c7 rfl,
    by decide, by decide, by decide, by decide⟩
